import Mathlib

/-!
# ArchHarness — verification of the specification against the source

This file gives a shallow embedding of the ArchHarness Python sources
(`src/harness/cli.py`, `src/harness/orchestrator.py`, `src/harness/tui.py`,
`src/adapters/repo/adapter.py`, `src/agents/roles.py`, `src/config/loader.py`)
and settles the frozen claims about them.

Conventions:
* Python strings are Lean `String`s; Python `None`-able values are `Option`s.
* Python truthiness of an optional string (`not x`) is `optStrFalsy`.
* Fallible Python code (code that can raise) is embedded with `Except PyErr`.
* External effects (process spawning, the clock, hashing, the filesystem
  contents observed by the workspace adapter) are supplied as explicit
  oracle parameters, so every definition stays computable.
-/

namespace ArchHarness

/-- Python exceptions that the modelled code can raise. -/
inductive PyErr where
  | valueError (msg : String)
  | typeError (msg : String)
  | fileNotFound
  | fileExists
  | indexError
  deriving Repr, DecidableEq, Inhabited

/-- Truthiness of a Python `Optional[str]`: `None` and `""` are falsy. -/
def optStrFalsy (o : Option String) : Bool :=
  match o with
  | none => true
  | some s => s = ""

/-! ## RunRequest (`src/harness/tui.py`, class `RunRequest`) -/

/-- The `RunRequest` dataclass from `src/harness/tui.py`. -/
structure RunRequest where
  workspaceMode : String
  workspacePath : String
  workflow : String
  taskPrompt : String
  projectName : Option String := none
  modelOverrides : Option (List (String × String)) := none
  commands : Option (List (String × Option String)) := none
  safety : Option (List (String × String)) := none
  deriving Repr, DecidableEq, Inhabited

/-- `RunRequest.validate` from `src/harness/tui.py`: raises `ValueError` when a
required field is missing or inconsistent, in source order. -/
def RunRequest.validate (r : RunRequest) : Except PyErr Unit :=
  if r.workspaceMode = "" then
    .error (.valueError "workspaceMode is required.")
  else if r.workspacePath = "" then
    .error (.valueError "workspacePath is required.")
  else if r.taskPrompt = "" then
    .error (.valueError "taskPrompt is required.")
  else if r.workspaceMode = "new-project" ∧ optStrFalsy r.projectName then
    .error (.valueError "projectName is required for new-project mode.")
  else
    .ok ()

/-- The raise condition stated by the claim (C3), literally: mode is
`new-project` with an empty/unset project name, or the task prompt is empty,
or the workspace path is empty. -/
def claimC3RaiseCond (r : RunRequest) : Prop :=
  (r.workspaceMode = "new-project" ∧ optStrFalsy r.projectName = true) ∨
    r.taskPrompt = "" ∨ r.workspacePath = ""

instance (r : RunRequest) : Decidable (claimC3RaiseCond r) := by
  unfold claimC3RaiseCond; infer_instance

/-- A `RunRequest` with every claim-listed field fine but an empty
`workspaceMode`; `validate` raises on it, refuting claim C3 as stated. -/
def emptyModeRequest : RunRequest :=
  { workspaceMode := ""
    workspacePath := "/tmp/foo"
    workflow := "frontend_feature"
    taskPrompt := "Add a login page" }

/-! ## shlex.split and Path(...).name models (stdlib helpers used by
`WorkspaceAdapter.run_command` in `src/adapters/repo/adapter.py`) -/

/-- State of the `shlex.split` scanner (POSIX mode, whitespace split). -/
inductive ShlexMode where
  | normal | escaped | squote | dquote | dquoteEscaped
  deriving Repr, DecidableEq

/-- One step scanner for `shlex.split` (POSIX rules as used by
`shlex.split(command)`): whitespace separates tokens, single quotes are
literal, double quotes allow backslash-escaping of a double quote or a
backslash, a backslash outside quotes escapes the next character.
`acc` is the list of finished tokens (reversed), `cur` is the token being
built (`none` when no token has started). -/
def shlexGo : List Char → ShlexMode → Option (List Char) → List (List Char) →
    Except PyErr (List (List Char))
  | [], .normal, cur, acc =>
    .ok ((match cur with | none => acc | some t => t :: acc).reverse)
  | [], .escaped, _, _ => .error (.valueError "No escaped character")
  | [], .dquoteEscaped, _, _ => .error (.valueError "No escaped character")
  | [], .squote, _, _ => .error (.valueError "No closing quotation")
  | [], .dquote, _, _ => .error (.valueError "No closing quotation")
  | c :: rest, .normal, cur, acc =>
    if c = ' ' ∨ c = '\t' ∨ c = '\n' ∨ c = '\r' then
      match cur with
      | none => shlexGo rest .normal none acc
      | some t => shlexGo rest .normal none (t :: acc)
    else if c = '\'' then shlexGo rest .squote (some (cur.getD [])) acc
    else if c = '"' then shlexGo rest .dquote (some (cur.getD [])) acc
    else if c = '\\' then shlexGo rest .escaped (some (cur.getD [])) acc
    else shlexGo rest .normal (some (cur.getD [] ++ [c])) acc
  | c :: rest, .escaped, cur, acc =>
    shlexGo rest .normal (some (cur.getD [] ++ [c])) acc
  | c :: rest, .squote, cur, acc =>
    if c = '\'' then shlexGo rest .normal cur acc
    else shlexGo rest .squote (some (cur.getD [] ++ [c])) acc
  | c :: rest, .dquote, cur, acc =>
    if c = '"' then shlexGo rest .normal cur acc
    else if c = '\\' then shlexGo rest .dquoteEscaped cur acc
    else shlexGo rest .dquote (some (cur.getD [] ++ [c])) acc
  | c :: rest, .dquoteEscaped, cur, acc =>
    if c = '"' ∨ c = '\\' then shlexGo rest .dquote (some (cur.getD [] ++ [c])) acc
    else shlexGo rest .dquote (some (cur.getD [] ++ ['\\', c])) acc

/-- Model of `shlex.split` (raises `ValueError` on an unterminated quote). -/
def shlexSplit (s : String) : Except PyErr (List String) :=
  (shlexGo s.data .normal none []).map (·.map (fun cs => String.mk cs))

/-- Split a character list at `'/'` boundaries (helper for `pathBaseName`). -/
def splitSlash : List Char → List Char → List (List Char)
  | [], cur => [cur.reverse]
  | c :: rest, cur =>
    if c = '/' then cur.reverse :: splitSlash rest []
    else splitSlash rest (c :: cur)

/-- Model of `pathlib.Path(tok).name`: the last path component, after
dropping empty and `"."` segments (pathlib normalises those away). -/
def pathBaseName (tok : String) : String :=
  let segs := (splitSlash tok.data []).filter (fun s => s ≠ [] ∧ s ≠ ['.'])
  String.mk (segs.getLast?.getD [])

/-- The source expression `Path(cmd[0]).name if cmd else ""` from
`run_command`. -/
def firstToken (cmd : List String) : String :=
  match cmd with
  | [] => ""
  | t :: _ => pathBaseName t

/-! ## WorkspaceAdapter.run_command (`src/adapters/repo/adapter.py`) -/

/-- Outcome of one `subprocess.run(cmd, cwd=..., check=False,
capture_output=True, text=True)` call, supplied by the process oracle:
either the executable was not found (Python raises `FileNotFoundError`)
or the process ran to completion with an exit code and captured output. -/
inductive SpawnOutcome where
  | notFound
  | completed (returncode : Int) (stdout stderr : String)
  deriving Repr, DecidableEq

/-- The `CommandResult` dictionary produced by `run_command`.  The skipped
branches of the source build a dict without a `returncode` key, hence
`returncode : Option Int`. -/
structure CommandResult where
  command : Option String
  skipped : Bool
  returncode : Option Int := none
  stdout : String := ""
  stderr : String := ""
  deriving Repr, DecidableEq, Inhabited

/-- Result of a modelled `run_command` call: the returned value (or the
raised exception) together with the argument vector passed to
`subprocess.run`, if a spawn was attempted (`none` = no process spawned). -/
structure RunCommandOut where
  res : Except PyErr CommandResult
  spawned : Option (List String)
  deriving Repr

/-- `WorkspaceAdapter.run_command` from `src/adapters/repo/adapter.py`.
`allowlist` is the adapter's allowlist; `spawn` is the process oracle;
`command` is the (possibly `None`) command string.
Mirrors the source: falsy command → skipped result; `shlex.split`;
`first = Path(cmd[0]).name if cmd else ""`; non-empty allowlist miss →
skipped result with explanatory stderr; otherwise `subprocess.run(cmd)`
(which raises `FileNotFoundError` for a missing executable, and raises
`IndexError` for an empty argument vector). -/
def runCommand (allowlist : List String) (spawn : List String → SpawnOutcome)
    (command : Option String) : RunCommandOut :=
  if optStrFalsy command then
    { res := .ok { command := command, skipped := true }, spawned := none }
  else
    match shlexSplit (command.getD "") with
    | .error e => { res := .error e, spawned := none }
    | .ok cmd =>
      let first := firstToken cmd
      if allowlist ≠ [] ∧ first ∉ allowlist then
        { res := .ok { command := command, skipped := true,
                       stderr := "Command not allowlisted" },
          spawned := none }
      else
        match cmd with
        | [] => { res := .error .indexError, spawned := none }
        | _ :: _ =>
          match spawn cmd with
          | .notFound => { res := .error .fileNotFound, spawned := some cmd }
          | .completed rc out err =>
            { res := .ok { command := command, skipped := false,
                           returncode := some rc, stdout := out, stderr := err },
              spawned := some cmd }

/-- A process oracle for a machine on which no executable exists. -/
def spawnAllMissing : List String → SpawnOutcome := fun _ => .notFound

/-- A process oracle wrapper used in witnesses: every spawn completes. -/
def spawnOk : List String → SpawnOutcome := fun _ => .completed 0 "" ""

/-- A process oracle whose spawned processes exit with status 1. -/
def spawnExit1 : List String → SpawnOutcome := fun _ => .completed 1 "" "boom"

/-! ## Snapshots, diff and changed files
(`src/adapters/repo/adapter.py`, `_snapshot` / `diff` / `changed_files`) -/

/-- One value of the `_snapshot()` mapping: a dict with a content hash and
the decoded text (`{"hash": ..., "text": ...}`). -/
structure SnapEntry where
  hash : String
  text : String
  deriving Repr, DecidableEq, Inhabited

/-- A workspace snapshot: relative path → entry, in walk order.  Keys are
unique (it models a Python dict). -/
abbrev Snapshot := List (String × SnapEntry)

/-- `WorkspaceAdapter._snapshot`: walk the files (`fs` gives relative path and
decoded content in `rglob` order), keep the ones passing the include/exclude
glob filter (`included` models `_is_included`), and record hash and text.
`sha` models `hashlib.sha256(data).hexdigest()`. -/
def snapshotOf (sha : String → String) (included : String → Bool)
    (fs : List (String × String)) : Snapshot :=
  (fs.filter (fun p => included p.1)).map
    (fun p => (p.1, { hash := sha p.2, text := p.2 }))

/-- Insertion sort step for strings (used to model Python's `sorted`). -/
def insertSorted (x : String) : List String → List String
  | [] => [x]
  | y :: rest => if x ≤ y then x :: y :: rest else y :: insertSorted x rest

/-- Model of Python's `sorted` on a list of strings. -/
def sortStrings (l : List String) : List String := l.foldr insertSorted []

/-- `sorted(set(baseline) | set(current))` from `diff` / `changed_files`. -/
def sortedKeyUnion (baseline current : Snapshot) : List String :=
  sortStrings ((baseline.map (·.1) ++ current.map (·.1)).dedup)

/-- Model of `str.splitlines(keepends=True)` (newline-terminated pieces). -/
def splitLinesKeep (s : String) : List String :=
  let rec go : List Char → List Char → List String
    | [], [] => []
    | [], cur => [String.mk cur.reverse]
    | c :: rest, cur =>
      if c = '\n' then String.mk (c :: cur).reverse :: go rest []
      else go rest (c :: cur)
  go s.data []

/-- `WorkspaceAdapter.diff`: walk the sorted union of baseline/current paths,
skip paths whose entries are equal, and emit a unified diff hunk for the
rest; `difflib.unified_diff` itself is an external oracle `udiff`
(before lines, after lines, fromfile, tofile → output lines).  The result is
`"\n".join(lines)` plus a trailing newline when any hunk was produced. -/
def adapterDiff (udiff : List String → List String → String → String → List String)
    (baseline current : Snapshot) : String :=
  let lines := (sortedKeyUnion baseline current).foldl
    (fun acc rel =>
      if List.lookup rel baseline = List.lookup rel current then acc
      else
        acc ++ udiff (splitLinesKeep (((List.lookup rel baseline).map (·.text)).getD ""))
          (splitLinesKeep (((List.lookup rel current).map (·.text)).getD ""))
          ("a/" ++ rel) ("b/" ++ rel)) []
  String.intercalate "\n" lines ++ (if lines ≠ [] then "\n" else "")

/-- `WorkspaceAdapter.changed_files`: paths in the sorted union whose
baseline/current content hashes differ (`.get(rel, {}).get("hash")`). -/
def adapterChangedFiles (baseline current : Snapshot) : List String :=
  (sortedKeyUnion baseline current).filter
    (fun rel => ((List.lookup rel baseline).map (·.hash)) ≠
      ((List.lookup rel current).map (·.hash)))

/-! ## initialize_project and path safety
(`src/adapters/repo/adapter.py`, `WorkspaceAdapter.initialize_project`) -/

/-- Split a path string into raw segments at `'/'`. -/
def splitPathSegs (s : String) : List String :=
  (splitSlash s.data []).map (fun cs => String.mk cs)

/-- Lexical resolution of path segments against an already-resolved absolute
base (`Path.resolve()` without symlinks): empty and `"."` segments vanish,
`".."` pops the last segment (staying at the root when there is none). -/
def resolveSegs : List String → List String → List String
  | acc, [] => acc
  | acc, s :: rest =>
    if s = "" ∨ s = "." then resolveSegs acc rest
    else if s = ".." then resolveSegs acc.dropLast rest
    else resolveSegs (acc ++ [s]) rest

/-- `(self.workspace_path / project_name).resolve()`: an absolute
`project_name` replaces the base (pathlib join semantics), otherwise the
name's segments are resolved against the base. -/
def pyJoinResolve (base : List String) (name : String) : List String :=
  if name.data.head? = some '/' then resolveSegs [] (splitPathSegs name)
  else resolveSegs base (splitPathSegs name)

/-- The mutable state of a `WorkspaceAdapter` relevant to
`initialize_project`: the resolved workspace root and the baseline. -/
structure WsState where
  workspacePath : List String
  baseline : Snapshot
  deriving Repr, DecidableEq

/-- `WorkspaceAdapter.initialize_project`.  `snapAt` is the snapshot oracle
(what `_snapshot()` reads from disk for a given root); `dirs` is the set of
directories existing on disk.  Returns (result-or-exception, adapter state,
directories): a raised exception leaves state and filesystem unchanged.
With a truthy name: resolve `root/name`, raise `ValueError` when the
resolved target is not inside the root (`relative_to` fails), then
`mkdir(parents=True, exist_ok=False)` (raising `FileExistsError` if the
target exists), re-point the root and re-capture the baseline.  With a falsy
name: `mkdir(parents=True, exist_ok=True)` on the root and re-capture. -/
def initializeProject (snapAt : List String → Snapshot)
    (dirs : List (List String)) (st : WsState) (projectName : Option String) :
    Except PyErr (List String) × WsState × List (List String) :=
  if optStrFalsy projectName then
    let dirs2 := if st.workspacePath ∈ dirs then dirs else st.workspacePath :: dirs
    (.ok st.workspacePath,
      { st with baseline := snapAt st.workspacePath }, dirs2)
  else
    let name := projectName.getD ""
    let target := pyJoinResolve st.workspacePath name
    if st.workspacePath.isPrefixOf target = false then
      (.error (.valueError "Project path escapes target root."), st, dirs)
    else if target ∈ dirs then
      (.error .fileExists, st, dirs)
    else
      (.ok target, { workspacePath := target, baseline := snapAt target },
        target :: dirs)

/-! ## ConversationController slot filling
(`src/harness/tui.py`, `ConversationController._parse_message` /
`update_slot`) -/

/-- A slot value: the source stores strings, except `modelOverrides`, which
is a nested dict of role-key → model name. -/
inductive SlotVal where
  | s (v : String)
  | d (m : List (String × String))
  deriving Repr, DecidableEq

/-- The `_slots` dict: slot name → value, in insertion order. -/
abbrev Slots := List (String × SlotVal)

/-- Python dict assignment `slots[k] = v`: replace in place, or append. -/
def slotsInsert (k : String) (v : SlotVal) : Slots → Slots
  | [] => [(k, v)]
  | (k2, v2) :: rest =>
    if k2 = k then (k, v) :: rest else (k2, v2) :: slotsInsert k v rest

/-- Nested dict assignment for the `modelOverrides` dict. -/
def dictInsert (k v : String) : List (String × String) → List (String × String)
  | [] => [(k, v)]
  | (k2, v2) :: rest =>
    if k2 = k then (k, v) :: rest else (k2, v2) :: dictInsert k v rest

/-- Python truthiness of `self._slots.get(key)`. -/
def slotTruthy (o : Option SlotVal) : Bool :=
  match o with
  | none => false
  | some (.s v) => v ≠ ""
  | some (.d m) => m ≠ []

/-- Substring containment (`needle in haystack` on Python strings). -/
def strContains (haystack needle : String) : Bool :=
  decide (needle.data <:+: haystack.data)

/-- `_ROLE_TO_KEY` from `src/harness/tui.py`, in dict insertion order. -/
def roleToKeyPairs : List (String × String) :=
  [("frontend", "frontendModel"), ("builder", "builderModel"),
   ("architecture", "architectureModel"), ("architect", "architectureModel"),
   ("tui", "tuiAssistantModel")]

/-- `ConversationController._apply_model_override`: look the role keyword up
in `_ROLE_TO_KEY` and, when found, write into the `modelOverrides` dict
(`setdefault("modelOverrides", {})[key] = model_value`). -/
def applyModelOverride (roleKw modelValue : String) (slots : Slots) : Slots :=
  match List.lookup roleKw roleToKeyPairs with
  | none => slots
  | some key =>
    let cur := match List.lookup "modelOverrides" slots with
      | some (.d m) => m
      | _ => []
    slotsInsert "modelOverrides" (.d (dictInsert key modelValue cur)) slots

/-- The outcome of the regex matches `_parse_message` performs on one
message.  Each field is what the corresponding compiled pattern produced on
the text: `setCmd` is the `_SET_CMD_RE` match (lower-cased stripped field
text, stripped value), `useModels` the `_USE_MODEL_RE.finditer` matches
(lower-cased role, model), `archReview` whether `_ARCH_REVIEW_RE` matched,
`newProject` whether `_NEW_PROJECT_RE` matched, `calledName` the
`_PROJECT_NAME_RE` capture, `pathToken` the first `_PATH_RE` match,
`inlineEdit` whether `_INLINE_EDIT_RE` matched, `strippedTask` the text with
path tokens removed and stripped, and `strippedText` the stripped text. -/
structure MsgFeatures where
  setCmd : Option (String × String) := none
  useModels : List (String × String) := []
  archReview : Bool := false
  newProject : Bool := false
  calledName : Option String := none
  pathToken : Option String := none
  inlineEdit : Bool := false
  strippedTask : String := ""
  strippedText : String := ""
  deriving Repr

/-- The inline `set/change X to Y` block of `_parse_message`: `some slots2`
models an early `return`, `none` models falling through to the remaining
rules with the slots untouched. -/
def parseSetCmd (resolvePath detectMode : String → String)
    (fieldText value : String) (slots : Slots) : Option Slots :=
  if strContains fieldText "workspace" ∨ strContains fieldText "path" ∨
      strContains fieldText "folder" then
    let resolved := resolvePath value
    let slots1 := slotsInsert "workspacePath" (.s resolved) slots
    some (if (List.lookup "workspaceMode" slots1).isNone then
      slotsInsert "workspaceMode" (.s (detectMode resolved)) slots1
    else slots1)
  else if strContains fieldText "project" ∧ strContains fieldText "name" then
    some (slotsInsert "projectName" (.s value) slots)
  else if strContains fieldText "workflow" then
    some (slotsInsert "workflow" (.s value) slots)
  else
    match roleToKeyPairs.find? (fun p => strContains fieldText p.1) with
    | some p => some (applyModelOverride p.1 value slots)
    | none => none

/-- The `use <model> for/as <role>` rule: apply every `_USE_MODEL_RE` match
as a model override, in match order. -/
def parseUseModels (useModels : List (String × String)) (slots : Slots) : Slots :=
  useModels.foldl (fun acc rq => applyModelOverride rq.1 rq.2 acc) slots

/-- The workflow-inference rule: fill `workflow` when the key is absent. -/
def parseWorkflow (archReview : Bool) (slots : Slots) : Slots :=
  if (List.lookup "workflow" slots).isNone then
    slotsInsert "workflow"
      (.s (if archReview then "arch_review_only" else "frontend_feature")) slots
  else slots

/-- The new-project-intent rule: set the mode, and the project name when a
`called/named X` phrase followed. -/
def parseNewProject (newProject : Bool) (calledName : Option String)
    (slots : Slots) : Slots :=
  if newProject then
    let t := slotsInsert "workspaceMode" (.s "new-project") slots
    match calledName with
    | some n => slotsInsert "projectName" (.s n) t
    | none => t
  else slots

/-- The path-detection rule: when a path token was found and no truthy
workspace path is set, resolve it, set the path, and auto-detect the mode
when that key is absent. -/
def parsePath (resolvePath detectMode : String → String)
    (pathToken : Option String) (slots : Slots) : Slots :=
  match pathToken with
  | some p =>
    if slotTruthy (List.lookup "workspacePath" slots) = false then
      let resolved := resolvePath p
      let t := slotsInsert "workspacePath" (.s resolved) slots
      if (List.lookup "workspaceMode" t).isNone then
        slotsInsert "workspaceMode" (.s (detectMode resolved)) t
      else t
    else slots
  | none => slots

/-- The task-prompt rule: first message fills the prompt with the
path-stripped text; a later pure free-form message replaces it. -/
def parseTask (f : MsgFeatures) (slots : Slots) : Slots :=
  if (List.lookup "taskPrompt" slots).isNone then
    if f.strippedTask ≠ "" then
      slotsInsert "taskPrompt" (.s f.strippedTask) slots
    else slots
  else if f.inlineEdit = false ∧ f.useModels = [] then
    slotsInsert "taskPrompt" (.s f.strippedText) slots
  else slots

/-- `ConversationController._parse_message`: apply the extraction rules in
source order — inline set-command (possibly returning early), `use X for
role` model overrides, workflow inference, new-project intent, path
detection, task prompt.  `resolvePath` models `str(Path(...).resolve())`
and `detectMode` models `_detect_workspace_mode`. -/
def parseMessage (resolvePath detectMode : String → String)
    (f : MsgFeatures) (slots : Slots) : Slots :=
  let early := match f.setCmd with
    | some (fieldText, value) =>
      parseSetCmd resolvePath detectMode fieldText value slots
    | none => none
  match early with
  | some slots2 => slots2
  | none =>
    parseTask f
      (parsePath resolvePath detectMode f.pathToken
        (parseNewProject f.newProject f.calledName
          (parseWorkflow f.archReview
            (parseUseModels f.useModels slots))))

/-- `ConversationController.update_slot`: direct slot assignment, plus
workspace-mode auto-detection when the workspace path is set and no mode is
known yet. -/
def updateSlot (detectMode : String → String) (k : String) (v : SlotVal)
    (slots : Slots) : Slots :=
  let s1 := slotsInsert k v slots
  if k = "workspacePath" ∧ (List.lookup "workspaceMode" s1).isNone then
    slotsInsert "workspaceMode"
      (.s (detectMode (match v with | .s str => str | .d _ => ""))) s1
  else s1

/-! ## Secret redaction (`src/harness/orchestrator.py`, `Orchestrator._redact`)

`_redact` applies
`re.sub(r"(ghp_[A-Za-z0-9]{20,}|sk-[A-Za-z0-9]{20,}|AKIA[0-9A-Z]{16})",
"***REDACTED***", value)` to strings and recurses through lists and dicts.
The scanner below is the model of that `re.sub` call: at each position the
three alternatives are tried (their first characters are mutually
exclusive), character classes are ASCII, `{20,}` is greedy (maximal run),
and scanning resumes after each replaced match. -/

/-- The `[A-Za-z0-9]` character class. -/
def isAlnumAscii (c : Char) : Bool :=
  ('A' ≤ c ∧ c ≤ 'Z') ∨ ('a' ≤ c ∧ c ≤ 'z') ∨ ('0' ≤ c ∧ c ≤ '9')

/-- The `[0-9A-Z]` character class. -/
def isUpperDigit (c : Char) : Bool :=
  ('A' ≤ c ∧ c ≤ 'Z') ∨ ('0' ≤ c ∧ c ≤ '9')

/-- Length of the maximal prefix run of characters satisfying `p`. -/
def runLen (p : Char → Bool) : List Char → Nat
  | [] => 0
  | c :: rest => if p c then runLen p rest + 1 else 0

/-- Length of the regex match starting at the head of `l`, if any:
`ghp_` or `sk-` followed by a greedy run of at least 20 alphanumerics, or
`AKIA` followed by exactly 16 uppercase letters / digits.  Every alternative
needs at least 20 characters, so lists shorter than four characters never
match. -/
def matchLen : List Char → Option Nat
  | a :: b :: c :: d :: t =>
    if a = 'g' ∧ b = 'h' ∧ c = 'p' ∧ d = '_' then
      if 20 ≤ runLen isAlnumAscii t then some (4 + runLen isAlnumAscii t)
      else none
    else if a = 's' ∧ b = 'k' ∧ c = '-' then
      if 20 ≤ runLen isAlnumAscii (d :: t) then
        some (3 + runLen isAlnumAscii (d :: t))
      else none
    else if a = 'A' ∧ b = 'K' ∧ c = 'I' ∧ d = 'A' then
      if 16 ≤ runLen isUpperDigit t then some 20 else none
    else none
  | _ => none

/-- The fixed replacement `"***REDACTED***"`, as characters. -/
def markerChars : List Char :=
  ['*', '*', '*', 'R', 'E', 'D', 'A', 'C', 'T', 'E', 'D', '*', '*', '*']

/-- The `re.sub` scan: at each position, replace a match with the marker
and resume after it, otherwise copy the character and move on. -/
def redactChars (l : List Char) : List Char :=
  match h : matchLen l with
  | some n => markerChars ++ redactChars (l.drop n)
  | none =>
    match l with
    | [] => []
    | c :: rest => c :: redactChars rest
termination_by l.length
decreasing_by
  · have hpos : 0 < n ∧ l ≠ [] := by
      refine ⟨?_, ?_⟩
      · cases l with
        | nil => exact absurd h (by simp [matchLen])
        | cons a l1 =>
          cases l1 with
          | nil => exact absurd h (by simp [matchLen])
          | cons b l2 =>
            cases l2 with
            | nil => exact absurd h (by simp [matchLen])
            | cons c2 l3 =>
              cases l3 with
              | nil => exact absurd h (by simp [matchLen])
              | cons d t =>
                simp only [matchLen] at h
                split_ifs at h <;> (cases h <;> omega)
      · intro hnil
        rw [hnil] at h
        exact absurd h (by simp [matchLen])
    have hlen : 0 < l.length := List.length_pos.mpr hpos.2
    simp only [List.length_drop]
    omega
  · simp

/-- `Orchestrator._redact` on a string: `re.sub` with the secret-token
pattern and the fixed marker. -/
def redactString (s : String) : String :=
  String.mk (redactChars s.data)

/-- A JSON-like Python value, as appearing in event messages and data. -/
inductive Value where
  | str (s : String)
  | int (n : Int)
  | bool (b : Bool)
  | none
  | list (items : List Value)
  | dict (entries : List (String × Value))
  deriving Repr

/-- `Orchestrator._redact`: redact strings, recurse through lists and dict
values (dict keys are left as they are), leave other values unchanged. -/
def redactValue : Value → Value
  | .str s => .str (redactString s)
  | .int n => .int n
  | .bool b => .bool b
  | .none => .none
  | .list items => .list (items.attach.map (fun x => redactValue x.1))
  | .dict entries =>
    .dict (entries.attach.map (fun x => (x.1.1, redactValue x.1.2)))
termination_by v => sizeOf v
decreasing_by
  · have := List.sizeOf_lt_of_mem x.2
    simp only [Value.list.sizeOf_spec]
    omega
  · have := List.sizeOf_lt_of_mem x.2
    have h2 : sizeOf x.1.2 < sizeOf x.1 := by
      obtain ⟨a, b⟩ := x.1
      simp
    simp only [Value.dict.sizeOf_spec]
    omega

/-- No suffix of `l` starts a secret-token match — equivalently, no
substring of `l` matches any of the three secret-token shapes. -/
def NoSecretChars (l : List Char) : Prop :=
  ∀ i : Nat, matchLen (l.drop i) = none

/-- Every string anywhere in the value (directly, in a list, or as a dict
value, at any depth) is free of secret-token matches. -/
inductive NoSecretValue : Value → Prop where
  | str {s : String} : NoSecretChars s.data → NoSecretValue (.str s)
  | int {n : Int} : NoSecretValue (.int n)
  | bool {b : Bool} : NoSecretValue (.bool b)
  | none : NoSecretValue .none
  | list {items : List Value} :
      (∀ v ∈ items, NoSecretValue v) → NoSecretValue (.list items)
  | dict {entries : List (String × Value)} :
      (∀ kv ∈ entries, NoSecretValue kv.2) → NoSecretValue (.dict entries)

/-! ## Role agents (`src/agents/roles.py`) -/

/-- The `Plan` dict produced by `FrontendAgent.plan`. -/
structure Plan where
  task : String
  components : List String
  filesToTouch : List String
  acceptanceCriteria : List String
  edgeCases : List String
  deriving Repr, DecidableEq, Inhabited

/-- The `BuildResult` dict produced by `BuilderAgent.implement`. -/
structure BuildResult where
  implementedFromPlan : Bool
  filesTouched : List String
  appliedActions : List String
  notes : String
  deriving Repr, DecidableEq, Inhabited

/-- One finding of a `Review`. -/
structure Finding where
  severity : String
  rule : String
  file : Option String
  line : Option Int
  symbol : Option String
  rationale : String
  deriving Repr, DecidableEq, Inhabited

/-- The `Review` dict produced by `ArchitectureAgent.review`. -/
structure Review where
  findings : List Finding
  requiredActions : List String
  deriving Repr, DecidableEq, Inhabited

/-- `FrontendAgent.plan` from `src/agents/roles.py`. -/
def frontendPlan (taskPrompt : String) (contextFiles : List String) : Plan :=
  { task := taskPrompt
    components := ["feature-shell", "state-handler", "validation"]
    filesToTouch := contextFiles.take 5
    acceptanceCriteria := ["Implements requested behavior", "Handles edge cases",
      "Maintains accessibility"]
    edgeCases := ["Empty data state", "Validation error paths"] }

/-- `BuilderAgent.implement` from `src/agents/roles.py` (`review_actions`
defaults to `None`; `review_actions or []`). -/
def builderImplement (plan : Plan) (reviewActions : Option (List String)) :
    BuildResult :=
  { implementedFromPlan := true
    filesTouched := plan.filesToTouch
    appliedActions := reviewActions.getD []
    notes := "Apply repo-specific implementation updates according to plan and review actions." }

/-- `ArchitectureAgent.review` from `src/agents/roles.py`. -/
def architectureReview (diffText : String) (filesTouched : List String)
    (appliedActions : Option (List String)) : Review :=
  let findings : List Finding :=
    if strContains diffText "TODO" ∧
        "Remove TODO markers and complete implementation details." ∉
          appliedActions.getD [] then
      [{ severity := "high", rule := "Structural quality",
         file := filesTouched.head?, line := none, symbol := none,
         rationale := "TODO markers indicate unfinished implementation." }]
    else []
  { findings := findings
    requiredActions :=
      if findings ≠ [] then
        ["Remove TODO markers and complete implementation details."]
      else [] }

/-- The three role agents the orchestrator holds (pluggable per the spec;
the constructor instantiates the concrete agents above). -/
structure Agents where
  frontendModel : String
  builderModel : String
  architectureModel : String
  plan : String → List String → Plan
  implement : Plan → Option (List String) → BuildResult
  review : String → List String → Option (List String) → Review

/-! ## Orchestrator (`src/harness/orchestrator.py`) -/

/-- The `commands` section of the configuration. -/
structure CommandsConfig where
  format : Option String
  lint : Option String
  test : Option String
  allowlist : List String
  deriving Repr, DecidableEq, Inhabited

/-- The configuration slice `Orchestrator.run` reads. -/
structure OrchConfig where
  maxIterations : Nat
  commands : CommandsConfig
  outputMode : String
  deriving Repr, DecidableEq, Inhabited

/-- The external world of one run: the run-directory name (its timestamp),
the event timestamps, `hashlib.sha256(...).hexdigest()`, and the adapter's
views of the workspace — `list_files()` (called once), the text of the n-th
`diff()` call, the files of the n-th `changed_files()` call, and the
process oracle for `run_command`. -/
structure RunEnv where
  runDirName : String
  timeAt : Nat → String
  sha256Hex : String → String
  listFiles : List String
  diffAt : Nat → String
  changedAt : Nat → List String
  spawn : List String → SpawnOutcome

/-- One record of `events.jsonl` (also the value handed to the event sink). -/
structure Event where
  runId : String
  timestamp : String
  source : String
  agentRole : Option String
  type : String
  level : String
  message : Value
  data : Value
  deriving Repr

/-- One `agents` entry of the run log. -/
structure AgentEntry where
  role : String
  model : String
  deriving Repr, DecidableEq, Inhabited

/-- One `toolCalls` entry of the run log. -/
inductive ToolCall where
  | contextGather (filesCount : Nat)
  | command (command : Option String) (skipped : Bool)
  deriving Repr, DecidableEq

/-- The `run_log` dict. -/
structure RunLog where
  workflow : String
  promptHash : String
  agents : List AgentEntry
  toolCalls : List ToolCall
  status : String
  deriving Repr

/-- Contents of one artifact file in the run directory. -/
inductive FileData where
  | runLogJson (log : RunLog)
  | reviewJson (r : Review)
  | textFile (s : String)
  deriving Repr

/-- Python dict assignment for a generic association list (used for the
run-directory files: writing a file replaces its previous content). -/
def assocSet {α : Type} (k : String) (v : α) :
    List (String × α) → List (String × α)
  | [] => [(k, v)]
  | (k2, v2) :: rest =>
    if k2 = k then (k, v) :: rest else (k2, v2) :: assocSet k v rest

/-- The observable state accumulated during a run: counters for the
`is_cancelled()` queries and the adapter `diff()`/`changed_files()` calls,
the emitted events (= the `events.jsonl` contents = what the sink saw), the
run-directory files, and how often each role capability was invoked. -/
structure OrchSt where
  queries : Nat := 0
  diffCalls : Nat := 0
  changedCalls : Nat := 0
  events : List Event := []
  files : List (String × FileData) := []
  plannerCalls : Nat := 0
  builderCalls : Nat := 0
  reviewerCalls : Nat := 0
  deriving Inhabited

/-- One `self._cancelled(control)` call: read the control flag (`f` maps the
query index to the answer) and advance the query counter. -/
def askCancelled (f : Nat → Bool) (st : OrchSt) : Bool × OrchSt :=
  (f st.queries, { st with queries := st.queries + 1 })

/-- One `adapter.diff()` call. -/
def askDiff (env : RunEnv) (st : OrchSt) : String × OrchSt :=
  (env.diffAt st.diffCalls, { st with diffCalls := st.diffCalls + 1 })

/-- One `adapter.changed_files()` call. -/
def askChanged (env : RunEnv) (st : OrchSt) : List String × OrchSt :=
  (env.changedAt st.changedCalls, { st with changedCalls := st.changedCalls + 1 })

/-- `Orchestrator._write_json` / `.write_text`: (over)write a run-dir file. -/
def writeFile (name : String) (d : FileData) (st : OrchSt) : OrchSt :=
  { st with files := assocSet name d st.files }

/-- `Orchestrator._emit_event`: build the event with redacted message and
data (`data or {}`), append it to `events.jsonl`, and hand the same event to
the sink.  Returns the new state and the event given to the sink. -/
def emitEvent (env : RunEnv) (source etype level : String) (message : Value)
    (data : Option Value) (agentRole : Option String) (st : OrchSt) :
    OrchSt × Event :=
  let e : Event :=
    { runId := env.runDirName
      timestamp := env.timeAt st.events.length
      source := source
      agentRole := agentRole
      type := etype
      level := level
      message := redactValue message
      data := redactValue (data.getD (.dict [])) }
  ({ st with events := st.events ++ [e] }, e)

/-- `Orchestrator._write_final_summary`. -/
def finalSummaryText (changedFiles : List String) (checks : List CommandResult)
    (review : Review) (unresolved : List String) : String :=
  let changedLines :=
    if changedFiles = [] then ["- none"]
    else changedFiles.map (fun f => "- " ++ f)
  let checkLines0 := checks.map (fun c =>
    "- " ++ (match c.command with | some s => s | none => "None") ++ ": " ++
      (if c.skipped then "skipped"
       else if c.returncode = some 0 then "passed" else "failed"))
  let checkLines := if checkLines0 = [] then ["- none"] else checkLines0
  String.intercalate "\n"
    (["# Final Summary", "", "## Changed files"] ++ changedLines ++
      ["", "## Tests/commands run"] ++ checkLines ++
      ["", "## Architecture findings",
        "- resolved high severity: " ++
          (if review.findings.any (fun fd => fd.severity = "high") then "no"
           else "yes"),
        "- unresolved count: " ++ toString unresolved.length])

/-- The `plan.md` text written by `Orchestrator.run`. -/
def planMdText (task : String) (plan : Plan) : String :=
  "# Frontend Plan\n\n" ++
    "- Task: " ++ task ++ "\n" ++
    "- Components: " ++ String.intercalate ", " plan.components ++ "\n" ++
    "- Files to touch: " ++
      (if plan.filesToTouch ≠ [] then String.intercalate ", " plan.filesToTouch
       else "none") ++ "\n"

/-- The empty review `{"findings": []}` used by the cancel-finalize paths. -/
def emptyReview : Review := { findings := [], requiredActions := [] }

/-- The `data` dict of an `agent.status` event with a model field. -/
def agentStatusData (status model currentStep : String) : Value :=
  .dict [("status", .str status), ("model", .str model),
    ("currentStep", .str currentStep)]

/-- The `data` dict of an `agent.status` event without a model field. -/
def agentStepStatusData (status currentStep : String) : Value :=
  .dict [("status", .str status), ("currentStep", .str currentStep)]

/-- Result of `Orchestrator.run` in the model: the run-dir name, the final
observable state, and the value of the query counter at the moment the
run log was last written (used to phrase "cancelled before finalization"). -/
structure RunResult where
  runDir : String
  st : OrchSt
  queriesAtFinalWrite : Nat
  deriving Inhabited

/-- Outcome of the format/lint/test loop in `Orchestrator.run`. -/
inductive ChecksOut where
  | cancelled (checks : List CommandResult) (runLog : RunLog) (st : OrchSt)
  | done (checks : List CommandResult) (runLog : RunLog) (st : OrchSt)
  | raised (e : PyErr)

/-- The `for key in ["format", "lint", "test"]` loop of `Orchestrator.run`:
per key, honor a cancellation checkpoint (finalizing with status
`cancelled`), then execute the configured command, record it, and emit a
`tool.call` event (level `error` for a non-skipped nonzero exit).  An
exception from `run_command` propagates. -/
def runChecks (cfg : OrchConfig) (env : RunEnv) (f : Nat → Bool)
    (keys : List (String × Option String)) (checks : List CommandResult)
    (runLog : RunLog) (st : OrchSt) : ChecksOut :=
  match keys with
  | [] => .done checks runLog st
  | (key, cmd) :: rest =>
    let (c, st1) := askCancelled f st
    if c then
      let runLog2 := { runLog with status := "cancelled" }
      let st2 := writeFile "run-log.json" (.runLogJson runLog2) st1
      let (chg, st3) := askChanged env st2
      let st4 := writeFile "final-summary.md"
        (.textFile (finalSummaryText chg checks emptyReview [])) st3
      let st5 := (emitEvent env "orchestrator" "run.cancelled" "warning"
        (.str "Run cancelled") none none st4).1
      .cancelled checks runLog2 st5
    else
      match runCommand cfg.commands.allowlist env.spawn cmd with
      | { res := .error e, spawned := _ } => .raised e
      | { res := .ok result, spawned := _ } =>
        let checks2 := checks ++ [result]
        let runLog2 := { runLog with toolCalls := runLog.toolCalls ++
          [.command result.command result.skipped] }
        let st2 := (emitEvent env "command" "tool.call"
          (if result.returncode.getD 0 = 0 ∨ result.skipped then "info"
           else "error")
          (.str ("Command " ++ key ++
            (if result.skipped then " skipped" else " executed")))
          (some (.dict [("command",
              match result.command with | some s => .str s | none => .none),
            ("skipped", .bool result.skipped),
            ("stdout", .str result.stdout),
            ("stderr", .str result.stderr)]))
          none st1).1
        runChecks cfg env f rest checks2 runLog2 st2

/-- The convergence loop of `Orchestrator.run`
(`while any high-severity and iterations < maxIterations`), with
`fuel = maxIterations - iterations`: per pass, honor a cancellation
checkpoint (break), then re-run Builder with the review's required actions
and re-run Reviewer on the fresh diff. -/
def convergeLoop (ags : Agents) (env : RunEnv) (f : Nat → Bool) (plan : Plan) :
    Nat → BuildResult → Review → OrchSt → BuildResult × Review × OrchSt
  | 0, b, r, st => (b, r, st)
  | fuel + 1, b, r, st =>
    if r.findings.any (fun fd => fd.severity = "high") then
      let (c, st1) := askCancelled f st
      if c then (b, r, st1)
      else
        let b2 := ags.implement plan (some r.requiredActions)
        let st2 := { st1 with builderCalls := st1.builderCalls + 1 }
        let (d, st3) := askDiff env st2
        let r2 := ags.review d b2.filesTouched (some b2.appliedActions)
        let st4 := { st3 with reviewerCalls := st3.reviewerCalls + 1 }
        convergeLoop ags env f plan fuel b2 r2 st4
    else (b, r, st)

/-- `Orchestrator.run` (`src/harness/orchestrator.py`): the full run-loop,
with the role capabilities, the control flag, and the workspace/process
oracles as explicit inputs.  Raising `run_command` calls propagate as
`Except.error`; every other path returns normally. -/
def orchRun (cfg : OrchConfig) (ags : Agents) (env : RunEnv) (f : Nat → Bool)
    (task : String) (workflow : String) : Except PyErr RunResult :=
  let st0 : OrchSt := {}
  let st1 := (emitEvent env "orchestrator" "run.started" "info"
    (.str "Run started") (some (.dict [("workflow", .str workflow)])) none st0).1
  let runLog : RunLog :=
    { workflow := workflow
      promptHash := env.sha256Hex task
      agents := [{ role := "frontend", model := ags.frontendModel },
        { role := "builder", model := ags.builderModel },
        { role := "architecture", model := ags.architectureModel }]
      toolCalls := []
      status := "running" }
  let st2 := (emitEvent env "agent" "agent.status" "info"
    (.str "frontend idle") (some (agentStatusData "Idle" ags.frontendModel "init"))
    (some "frontend") st1).1
  let st3 := (emitEvent env "agent" "agent.status" "info"
    (.str "builder idle") (some (agentStatusData "Idle" ags.builderModel "init"))
    (some "builder") st2).1
  let st4 := (emitEvent env "agent" "agent.status" "info"
    (.str "architecture idle")
    (some (agentStatusData "Idle" ags.architectureModel "init"))
    (some "architecture") st3).1
  let (c0, st5) := askCancelled f st4
  if c0 then
    let runLog2 := { runLog with status := "cancelled" }
    let st6 := writeFile "run-log.json" (.runLogJson runLog2) st5
    let (chg, st7) := askChanged env st6
    let st8 := writeFile "final-summary.md"
      (.textFile (finalSummaryText chg [] emptyReview [])) st7
    let st9 := (emitEvent env "orchestrator" "run.cancelled" "warning"
      (.str "Run cancelled") none none st8).1
    .ok { runDir := env.runDirName, st := st9, queriesAtFinalWrite := st5.queries }
  else
    let contextFiles := env.listFiles
    let runLogA := { runLog with toolCalls := runLog.toolCalls ++
      [.contextGather contextFiles.length] }
    let st6 := (emitEvent env "repo" "tool.call" "info"
      (.str "Context gathered")
      (some (.dict [("filesCount", .int contextFiles.length)])) none st5).1
    if workflow = "arch_review_only" then
      let st7 := (emitEvent env "agent" "agent.status" "info"
        (.str "architecture running")
        (some (agentStepStatusData "Running" "architecture_review"))
        (some "architecture") st6).1
      let (d, st8) := askDiff env st7
      let (chg, st9) := askChanged env st8
      let review := ags.review d chg none
      let st10 := { st9 with reviewerCalls := st9.reviewerCalls + 1 }
      let st11 := writeFile "architecture-review.json" (.reviewJson review) st10
      let st12 := writeFile "run-log.json" (.runLogJson runLogA) st11
      let (chg2, st13) := askChanged env st12
      let st14 := writeFile "final-summary.md"
        (.textFile (finalSummaryText chg2 [] review [])) st13
      let runLogB := { runLogA with status := "completed" }
      let st15 := writeFile "run-log.json" (.runLogJson runLogB) st14
      let st16 := (emitEvent env "agent" "agent.status" "info"
        (.str "architecture completed")
        (some (agentStepStatusData "Completed" "architecture_review"))
        (some "architecture") st15).1
      let st17 := (emitEvent env "orchestrator" "run.completed" "info"
        (.str "Run completed") none none st16).1
      .ok { runDir := env.runDirName
            st := st17
            queriesAtFinalWrite := st15.queries }
    else
      let st7 := (emitEvent env "agent" "agent.status" "info"
        (.str "frontend running")
        (some (agentStepStatusData "Running" "plan")) (some "frontend") st6).1
      let plan := ags.plan task contextFiles
      let st8 := { st7 with plannerCalls := st7.plannerCalls + 1 }
      let st9 := writeFile "plan.md" (.textFile (planMdText task plan)) st8
      let st10 := (emitEvent env "agent" "agent.status" "info"
        (.str "frontend completed")
        (some (agentStepStatusData "Completed" "plan")) (some "frontend") st9).1
      match runChecks cfg env f
        [("format", cfg.commands.format), ("lint", cfg.commands.lint),
         ("test", cfg.commands.test)] [] runLogA st10 with
      | .raised e => .error e
      | .cancelled _ runLogC stC =>
        .ok { runDir := env.runDirName
              st := stC
              queriesAtFinalWrite := stC.queries }
      | .done checks runLogB st11 =>
        let st12 := (emitEvent env "agent" "agent.status" "info"
          (.str "builder running")
          (some (agentStepStatusData "Running" "implement"))
          (some "builder") st11).1
        let build := ags.implement plan none
        let st13 := { st12 with builderCalls := st12.builderCalls + 1 }
        let st14 := (emitEvent env "agent" "agent.step" "info"
          (.str "builder tool activity")
          (some (.dict [("filesTouchedCount", .int build.filesTouched.length)]))
          (some "builder") st13).1
        let (d, st15) := askDiff env st14
        let review := ags.review d build.filesTouched (some build.appliedActions)
        let st16 := { st15 with reviewerCalls := st15.reviewerCalls + 1 }
        let (_, review2, st17) :=
          convergeLoop ags env f plan cfg.maxIterations build review st16
        let st18 := (emitEvent env "agent" "agent.status" "info"
          (.str "builder completed")
          (some (agentStepStatusData "Completed" "implement"))
          (some "builder") st17).1
        let st19 := (emitEvent env "agent" "agent.status" "info"
          (.str "architecture running")
          (some (agentStepStatusData "Running" "architecture_review"))
          (some "architecture") st18).1
        let st20 := writeFile "architecture-review.json" (.reviewJson review2) st19
        let (diffText, st21) := askDiff env st20
        let st22 := writeFile "changes.patch" (.textFile diffText) st21
        let st23 := writeFile "run-log.json" (.runLogJson runLogB) st22
        let (chg, st24) := askChanged env st23
        let st25 := writeFile "final-summary.md"
          (.textFile (finalSummaryText chg checks review2 [])) st24
        let (c1, st26) := askCancelled f st25
        let runLogC := { runLogB with
          status := if c1 then "cancelled" else "completed" }
        let st27 := writeFile "run-log.json" (.runLogJson runLogC) st26
        let (c2, st28) := askCancelled f st27
        let st29 := (emitEvent env "agent" "agent.status" "info"
          (.str "architecture completed")
          (some (agentStepStatusData (if c2 then "Cancelled" else "Completed")
            "architecture_review"))
          (some "architecture") st28).1
        let st30 := (emitEvent env "orchestrator"
          (if runLogC.status = "completed" then "run.completed"
           else "run.cancelled")
          (if runLogC.status = "completed" then "info" else "warning")
          (.str (if runLogC.status = "completed" then "Run completed"
            else "Run cancelled"))
          none none st29).1
        .ok { runDir := env.runDirName
              st := st30
              queriesAtFinalWrite := st26.queries }

/-- The final status recorded in the `run-log.json` artifact of a run. -/
def finalRunLogStatus (r : RunResult) : Option String :=
  match List.lookup "run-log.json" r.st.files with
  | some (.runLogJson log) => some log.status
  | _ => none

/-! ## CLI (`src/harness/cli.py`) -/

/-- The parameter names of `Orchestrator.run`
(`def run(self, task, repo_path, workflow, event_sink=None, control=None)`),
excluding `self`. -/
def orchRunParams : List String :=
  ["task", "repo_path", "workflow", "event_sink", "control"]

/-- The keyword arguments `main` passes to `orchestrator.run(...)` beyond
the three positional ones (`src/harness/cli.py`, lines 56-63). -/
def cliRunKeywordArgs : List String :=
  ["workspace_mode", "project_name", "init_git"]

/-- Python call binding against a plain (no `**kwargs`) signature: the call
proceeds only when every positional argument has a parameter and every
keyword argument names a parameter not already bound positionally;
otherwise a `TypeError` is raised before the function body runs. -/
def pyCallOrRaise {α : Type} (params : List String) (positional : Nat)
    (keywords : List String) (call : Unit → α) : Except PyErr α :=
  if positional ≤ params.length ∧
      (keywords.all (fun k => k ∈ params.drop positional)) = true then
    .ok (call ())
  else
    .error (.typeError "run() got an unexpected keyword argument")

/-! ## Concrete instances used by witnesses -/

/-- The default configuration slice (`DEFAULT_CONFIG` in
`src/config/loader.py`): maxIterations 2, no commands, empty allowlist. -/
def defaultOrchConfig : OrchConfig :=
  { maxIterations := 2
    commands := { format := none, lint := none, test := none, allowlist := [] }
    outputMode := "patch" }

/-- The concrete agents the `Orchestrator` constructor builds, with the
default models of `DEFAULT_CONFIG`. -/
def defaultAgents : Agents :=
  { frontendModel := "sonnet-4.6"
    builderModel := "codex-5.3"
    architectureModel := "opus-4.6"
    plan := frontendPlan
    implement := builderImplement
    review := architectureReview }

/-- A reviewer that reports a high-severity finding on every review. -/
def alwaysHighAgents : Agents :=
  { defaultAgents with
    review := fun _ _ _ =>
      { findings := [{ severity := "high"
                       rule := "Structural quality"
                       file := none
                       line := none
                       symbol := none
                       rationale := "unresolved" }]
        requiredActions :=
          ["Remove TODO markers and complete implementation details."] } }

/-- A concrete run environment: one file, an empty diff, all spawns
succeed. -/
def witnessEnv : RunEnv :=
  { runDirName := "20240101T000000Z"
    timeAt := fun _ => "2024-01-01T00:00:00+00:00"
    sha256Hex := fun _ => "hash"
    listFiles := ["file.txt"]
    diffAt := fun _ => ""
    changedAt := fun _ => []
    spawn := fun _ => .completed 0 "" "" }

/-- The run used by the C4 witness: control cancelled from the start. -/
def cancelRunResult : RunResult :=
  (orchRun defaultOrchConfig defaultAgents witnessEnv (fun _ => true)
    "Build feature" "frontend_feature").toOption.getD default

/-- The run used by the C5 witness: always-high reviewer, no cancellation. -/
def highRunResult : RunResult :=
  (orchRun defaultOrchConfig alwaysHighAgents witnessEnv (fun _ => false)
    "Build feature" "frontend_feature").toOption.getD default

/-! ## Theorems -/

/-- C3, counterexample: on a `RunRequest` whose `workspaceMode` is the empty
string (all fields the claim mentions being fine), `validate` raises, although
the claim's "if and only if" condition does not hold — so `validate` does not
return without raising "for all other field combinations". -/
theorem validate_raises_on_empty_mode :
    RunRequest.validate emptyModeRequest ≠ .ok () ∧
      ¬ claimC3RaiseCond emptyModeRequest := by
  constructor
  · intro h
    simp [RunRequest.validate, emptyModeRequest] at h
  · intro h
    rcases h with ⟨h1, _⟩ | h | h <;> simp [emptyModeRequest, optStrFalsy] at *

/-- C3, amended: `RunRequest.validate` raises if and only if `workspaceMode`
is empty, or `workspacePath` is empty, or `taskPrompt` is empty, or
`workspaceMode` is `"new-project"` and `projectName` is empty or unset. -/
theorem validate_raises_iff (r : RunRequest) :
    (∃ e, RunRequest.validate r = .error e) ↔
      (r.workspaceMode = "" ∨ r.workspacePath = "" ∨ r.taskPrompt = "" ∨
        (r.workspaceMode = "new-project" ∧ optStrFalsy r.projectName = true)) := by
  unfold RunRequest.validate
  split_ifs with h1 h2 h3 h4 <;> simp_all

/-- C2, counterexample: `run_command` on a command whose executable does not
exist raises (`subprocess.run` raises `FileNotFoundError`, and the source has
no handler for it), so it is not the case that `run_command` "never raises an
exception" for every command string. -/
theorem run_command_missing_executable_raises :
    (runCommand [] spawnAllMissing (some "definitely-missing-exe")).res =
      .error .fileNotFound := by rfl

/-- C2, amended: (a) with a non-empty allowlist, a command whose executable
basename is absent from the allowlist yields `skipped=true` with stderr
"Command not allowlisted" and no process is spawned; (b) a command that
passes the allowlist gate and whose process completes (with any exit code,
including nonzero) returns a non-skipped `CommandResult` carrying that exit
code, without raising; (c) but a command whose executable does not exist
propagates `FileNotFoundError` after the spawn attempt. -/
theorem run_command_outcomes :
    (∀ (allow : List String) (spawn : List String → SpawnOutcome) (s : String)
        (toks : List String),
        allow ≠ [] → s ≠ "" → shlexSplit s = .ok toks →
        firstToken toks ∉ allow →
        runCommand allow spawn (some s) =
          { res := .ok { command := some s, skipped := true,
                         stderr := "Command not allowlisted" },
            spawned := none }) ∧
    (∀ (allow : List String) (spawn : List String → SpawnOutcome) (s : String)
        (toks : List String) (rc : Int) (out err : String),
        s ≠ "" → shlexSplit s = .ok toks → toks ≠ [] →
        (allow = [] ∨ firstToken toks ∈ allow) →
        spawn toks = .completed rc out err →
        runCommand allow spawn (some s) =
          { res := .ok { command := some s, skipped := false,
                         returncode := some rc, stdout := out, stderr := err },
            spawned := some toks }) ∧
    (∀ (allow : List String) (spawn : List String → SpawnOutcome) (s : String)
        (toks : List String),
        s ≠ "" → shlexSplit s = .ok toks → toks ≠ [] →
        (allow = [] ∨ firstToken toks ∈ allow) →
        spawn toks = .notFound →
        runCommand allow spawn (some s) =
          { res := .error .fileNotFound, spawned := some toks }) := by
  refine ⟨?_, ?_, ?_⟩
  · intro allow spawn s toks hne hs hsplit hmiss
    simp only [runCommand, optStrFalsy, Option.getD, hsplit]
    rw [if_neg (by simp [hs]), if_pos ⟨hne, hmiss⟩]
  · intro allow spawn s toks rc out err hs hsplit htoks hpass hspawn
    simp only [runCommand, optStrFalsy, Option.getD, hsplit]
    have hcond : ¬(allow ≠ [] ∧ firstToken toks ∉ allow) := by
      rcases hpass with h | h
      · simp [h]
      · simp [h]
    rw [if_neg (by simp [hs]), if_neg hcond]
    cases toks with
    | nil => exact absurd rfl htoks
    | cons a l => rw [hspawn]
  · intro allow spawn s toks hs hsplit htoks hpass hspawn
    simp only [runCommand, optStrFalsy, Option.getD, hsplit]
    have hcond : ¬(allow ≠ [] ∧ firstToken toks ∉ allow) := by
      rcases hpass with h | h
      · simp [h]
      · simp [h]
    rw [if_neg (by simp [hs]), if_neg hcond]
    cases toks with
    | nil => exact absurd rfl htoks
    | cons a l => rw [hspawn]

/-- C2, witness: the amended theorem applied at concrete inputs — an
allowlist miss (`npm` against allowlist `["git"]`), a nonzero-exit command,
and a missing executable. -/
theorem run_command_outcomes_witness :
    runCommand ["git"] spawnOk (some "npm install") =
      { res := .ok { command := some "npm install", skipped := true,
                     stderr := "Command not allowlisted" },
        spawned := none } ∧
    runCommand [] spawnExit1 (some "git status") =
      { res := .ok { command := some "git status", skipped := false,
                     returncode := some 1, stdout := "", stderr := "boom" },
        spawned := some ["git", "status"] } ∧
    runCommand [] spawnAllMissing (some "ghost") =
      { res := .error .fileNotFound, spawned := some ["ghost"] } := by
  refine ⟨?_, ?_, ?_⟩
  · exact run_command_outcomes.1 ["git"] spawnOk "npm install" ["npm", "install"]
      (by decide) (by decide) (by rfl) (by decide)
  · exact run_command_outcomes.2.1 [] spawnExit1 "git status" ["git", "status"]
      1 "" "boom" (by decide) (by rfl) (by decide) (Or.inl rfl) rfl
  · exact run_command_outcomes.2.2 [] spawnAllMissing "ghost" ["ghost"]
      (by decide) (by rfl) (by decide) (Or.inl rfl) rfl

/-- C10: when the allowlist is non-empty, `run_command` spawns a process for
a parsed command if and only if the basename of the command's first token
(`Path(cmd[0]).name`) is in the allowlist — the directory part of the
executable path plays no role. -/
theorem run_command_allowlist_checks_basename
    (allow : List String) (spawn : List String → SpawnOutcome) (s : String)
    (toks : List String) (h1 : allow ≠ []) (h2 : shlexSplit s = .ok toks)
    (h3 : toks ≠ []) :
    (runCommand allow spawn (some s)).spawned =
      if firstToken toks ∈ allow then some toks else none := by
  have hs : s ≠ "" := by
    rintro rfl
    rw [show shlexSplit "" = .ok [] from rfl] at h2
    cases h2
    exact h3 rfl
  simp only [runCommand, optStrFalsy, Option.getD, h2]
  rw [if_neg (by simp [hs])]
  by_cases hmem : firstToken toks ∈ allow
  · rw [if_neg (by simp [hmem]), if_pos hmem]
    cases toks with
    | nil => exact absurd rfl h3
    | cons a l => cases spawn (a :: l) <;> rfl
  · rw [if_pos ⟨h1, hmem⟩, if_neg hmem]

/-- C10, witness: `/anywhere/git status` is spawned when `git` is
allowlisted, although `/anywhere/git` itself is not the allowlisted name. -/
theorem run_command_allowlist_checks_basename_witness :
    (runCommand ["git"] spawnOk (some "/anywhere/git status")).spawned =
      some ["/anywhere/git", "status"] := by
  have h := run_command_allowlist_checks_basename ["git"] spawnOk
    "/anywhere/git status" ["/anywhere/git", "status"] (by decide) (by rfl)
    (by decide)
  rw [if_pos (show firstToken ["/anywhere/git", "status"] ∈ ["git"] by decide)] at h
  exact h

/-- Helper: a fold that skips every element whose guard compares a value
with itself leaves the accumulator unchanged. -/
theorem foldl_skip_self_eq (g : List String → String → List String)
    (s t : Snapshot) (hst : s = t) (l : List String) (acc : List String) :
    l.foldl (fun a rel =>
      if List.lookup rel s = List.lookup rel t then a else g a rel) acc = acc := by
  subst hst
  induction l generalizing acc with
  | nil => rfl
  | cons x xs ih => rw [List.foldl_cons, if_pos rfl]; exact ih acc

/-- C7: when the included files are unchanged since `capture_baseline` (so
the freshly computed snapshot equals the baseline snapshot), `diff()`
returns the empty string and `changed_files()` returns the empty list. -/
theorem diff_empty_when_unchanged
    (udiff : List String → List String → String → String → List String)
    (sha : String → String) (included : String → Bool)
    (fs : List (String × String)) :
    adapterDiff udiff (snapshotOf sha included fs) (snapshotOf sha included fs) = "" ∧
      adapterChangedFiles (snapshotOf sha included fs) (snapshotOf sha included fs) = [] := by
  constructor
  · unfold adapterDiff
    rw [foldl_skip_self_eq
      (fun a rel =>
        a ++ udiff
          (splitLinesKeep (((List.lookup rel (snapshotOf sha included fs)).map (·.text)).getD ""))
          (splitLinesKeep (((List.lookup rel (snapshotOf sha included fs)).map (·.text)).getD ""))
          ("a/" ++ rel) ("b/" ++ rel))
      (snapshotOf sha included fs) (snapshotOf sha included fs) rfl]
    rfl
  · unfold adapterChangedFiles
    rw [List.filter_eq_nil_iff]
    intro a _
    simp

/-- C6: `initialize_project(name)` with a truthy name whose resolved target
escapes the workspace root raises the path-escape `ValueError` and performs
no mutation: the adapter's root and baseline and the set of directories on
disk are all returned unchanged. -/
theorem initialize_project_escape (snapAt : List String → Snapshot)
    (dirs : List (List String)) (st : WsState) (name : String)
    (hname : name ≠ "")
    (hesc : st.workspacePath.isPrefixOf (pyJoinResolve st.workspacePath name) = false) :
    initializeProject snapAt dirs st (some name) =
      (.error (.valueError "Project path escapes target root."), st, dirs) := by
  simp only [initializeProject, Option.getD]
  rw [if_neg (by simp [optStrFalsy, hname]), if_pos hesc]

/-- The adapter state used in the C6 witness: root `/tmp/x`. -/
def escapeSt : WsState := { workspacePath := ["tmp", "x"], baseline := [] }

/-- C6, witness: `initializeProject("../escape")` against root `/tmp/x`
raises the path-escape error, leaving state and filesystem untouched. -/
theorem initialize_project_escape_witness :
    initializeProject (fun _ => []) [["tmp", "x"]] escapeSt (some "../escape") =
      (.error (.valueError "Project path escapes target root."), escapeSt,
        [["tmp", "x"]]) :=
  initialize_project_escape (fun _ => []) [["tmp", "x"]] escapeSt "../escape"
    (by decide) (by decide)

/-- Helper: dict assignment either overwrites the key or leaves the other
bindings in place. -/
theorem lookup_slotsInsert (k k2 : String) (v : SlotVal) (slots : Slots) :
    List.lookup k2 (slotsInsert k v slots) =
      if k2 = k then some v else List.lookup k2 slots := by
  induction slots with
  | nil =>
    by_cases h : k2 = k
    · subst h; simp [slotsInsert, List.lookup]
    · simp [slotsInsert, List.lookup, h, beq_eq_false_iff_ne.mpr h]
  | cons p rest ih =>
    obtain ⟨k3, v3⟩ := p
    by_cases h3 : k3 = k
    · subst h3
      by_cases h : k2 = k3
      · subst h; simp [slotsInsert, List.lookup]
      · simp [slotsInsert, List.lookup, h, beq_eq_false_iff_ne.mpr h]
    · by_cases h : k2 = k3
      · subst h
        simp [slotsInsert, List.lookup, h3]
      · simp [slotsInsert, List.lookup, h3, h, beq_eq_false_iff_ne.mpr h, ih]

/-- Helper: a filled slot stays filled across a dict assignment. -/
theorem slotsInsert_keeps (k k2 : String) (v : SlotVal) (slots : Slots)
    (h : (List.lookup k2 slots).isSome = true) :
    (List.lookup k2 (slotsInsert k v slots)).isSome = true := by
  rw [lookup_slotsInsert]
  split_ifs with hk
  · rfl
  · exact h

/-- Helper: a filled slot stays filled across `_apply_model_override`. -/
theorem applyModelOverride_keeps (r m k2 : String) (slots : Slots)
    (h : (List.lookup k2 slots).isSome = true) :
    (List.lookup k2 (applyModelOverride r m slots)).isSome = true := by
  unfold applyModelOverride
  cases List.lookup r roleToKeyPairs with
  | none => exact h
  | some key => exact slotsInsert_keeps _ _ _ _ h

/-- Helper: a filled slot stays filled across the `use X for role` rule. -/
theorem parseUseModels_keeps (l : List (String × String)) (k2 : String) :
    ∀ slots : Slots, (List.lookup k2 slots).isSome = true →
      (List.lookup k2 (parseUseModels l slots)).isSome = true := by
  induction l with
  | nil => intro slots h; exact h
  | cons p rest ih =>
    intro slots h
    exact ih _ (applyModelOverride_keeps p.1 p.2 k2 slots h)

/-- Helper: a filled slot stays filled across the workflow rule. -/
theorem parseWorkflow_keeps (b : Bool) (k2 : String) (slots : Slots)
    (h : (List.lookup k2 slots).isSome = true) :
    (List.lookup k2 (parseWorkflow b slots)).isSome = true := by
  unfold parseWorkflow
  by_cases hc : (List.lookup "workflow" slots).isNone = true
  · rw [if_pos hc]; exact slotsInsert_keeps _ _ _ _ h
  · rw [if_neg hc]; exact h

/-- Helper: a filled slot stays filled across the new-project rule. -/
theorem parseNewProject_keeps (b : Bool) (cn : Option String) (k2 : String)
    (slots : Slots) (h : (List.lookup k2 slots).isSome = true) :
    (List.lookup k2 (parseNewProject b cn slots)).isSome = true := by
  unfold parseNewProject
  split_ifs with hc
  · cases cn with
    | none => exact slotsInsert_keeps _ _ _ _ h
    | some n => exact slotsInsert_keeps _ _ _ _ (slotsInsert_keeps _ _ _ _ h)
  · exact h

/-- Helper: a filled slot stays filled across the path-detection rule. -/
theorem parsePath_keeps (rp dm : String → String) (pt : Option String)
    (k2 : String) (slots : Slots)
    (h : (List.lookup k2 slots).isSome = true) :
    (List.lookup k2 (parsePath rp dm pt slots)).isSome = true := by
  cases pt with
  | none => exact h
  | some p =>
    simp only [parsePath]
    by_cases h1 : slotTruthy (List.lookup "workspacePath" slots) = false
    · rw [if_pos h1]
      by_cases h2 : (List.lookup "workspaceMode"
          (slotsInsert "workspacePath" (.s (rp p)) slots)).isNone = true
      · rw [if_pos h2]
        exact slotsInsert_keeps _ _ _ _ (slotsInsert_keeps _ _ _ _ h)
      · rw [if_neg h2]
        exact slotsInsert_keeps _ _ _ _ h
    · rw [if_neg h1]; exact h

/-- Helper: a filled slot stays filled across the task-prompt rule. -/
theorem parseTask_keeps (f : MsgFeatures) (k2 : String) (slots : Slots)
    (h : (List.lookup k2 slots).isSome = true) :
    (List.lookup k2 (parseTask f slots)).isSome = true := by
  unfold parseTask
  split_ifs <;> first
    | exact h
    | exact slotsInsert_keeps _ _ _ _ h

/-- Helper: a filled slot stays filled across the inline set-command rule
when it returns early. -/
theorem parseSetCmd_keeps (rp dm : String → String) (ft v : String)
    (slots slots2 : Slots) (k2 : String)
    (he : parseSetCmd rp dm ft v slots = some slots2)
    (h : (List.lookup k2 slots).isSome = true) :
    (List.lookup k2 slots2).isSome = true := by
  unfold parseSetCmd at he
  split_ifs at he with h1 h2 h3
  · obtain rfl := Option.some.inj he
    split_ifs
    · exact slotsInsert_keeps _ _ _ _ (slotsInsert_keeps _ _ _ _ h)
    · exact slotsInsert_keeps _ _ _ _ h
  · obtain rfl := Option.some.inj he
    exact slotsInsert_keeps _ _ _ _ h
  · obtain rfl := Option.some.inj he
    exact slotsInsert_keeps _ _ _ _ h
  · cases hf : roleToKeyPairs.find? (fun p => strContains ft p.1) with
    | none => rw [hf] at he; cases he
    | some p =>
      rw [hf] at he
      obtain rfl := Option.some.inj he
      exact applyModelOverride_keeps _ _ _ _ h

/-- C9: the set of filled slots never shrinks.  Processing a message
(`_parse_message`, whose slot effects are exactly those of
`process_message`) and a direct `update_slot` call may add slots or
overwrite a slot's value, but any slot present beforehand is still present
afterwards. -/
theorem slots_never_shrink :
    (∀ (rp dm : String → String) (f : MsgFeatures) (slots : Slots)
        (k : String),
        (List.lookup k slots).isSome = true →
        (List.lookup k (parseMessage rp dm f slots)).isSome = true) ∧
    (∀ (dm : String → String) (k : String) (v : SlotVal) (slots : Slots)
        (k2 : String),
        (List.lookup k2 slots).isSome = true →
        (List.lookup k2 (updateSlot dm k v slots)).isSome = true) := by
  constructor
  · intro rp dm f slots k h
    obtain ⟨sc, um, ar, np, cn, pt, ie, st1, st2⟩ := f
    unfold parseMessage
    cases sc with
    | some pv =>
      obtain ⟨ft, v⟩ := pv
      dsimp only
      cases he : parseSetCmd rp dm ft v slots with
      | some slots2 =>
        exact parseSetCmd_keeps rp dm ft v slots slots2 k he h
      | none =>
        exact parseTask_keeps _ _ _
          (parsePath_keeps _ _ _ _ _
            (parseNewProject_keeps _ _ _ _
              (parseWorkflow_keeps _ _ _
                (parseUseModels_keeps _ _ _ h))))
    | none =>
      dsimp only
      exact parseTask_keeps _ _ _
        (parsePath_keeps _ _ _ _ _
          (parseNewProject_keeps _ _ _ _
            (parseWorkflow_keeps _ _ _
              (parseUseModels_keeps _ _ _ h))))
  · intro dm k v slots k2 h
    simp only [updateSlot]
    split_ifs with hc
    · exact slotsInsert_keeps _ _ _ _ (slotsInsert_keeps _ _ _ _ h)
    · exact slotsInsert_keeps _ _ _ _ h

/-- C9, witness: a controller whose `taskPrompt` slot is filled still has it
filled after a message that overwrites the prompt, and after an
`update_slot` call on another key. -/
theorem slots_never_shrink_witness :
    (List.lookup "taskPrompt"
      (parseMessage id id { strippedText := "new task" }
        [("taskPrompt", .s "old task")])).isSome = true ∧
    (List.lookup "taskPrompt"
      (updateSlot id "workspacePath" (.s "/tmp/w")
        [("taskPrompt", .s "old task")])).isSome = true := by
  constructor
  · exact slots_never_shrink.1 id id { strippedText := "new task" }
      [("taskPrompt", .s "old task")] "taskPrompt" (by decide)
  · exact slots_never_shrink.2 id "workspacePath" (.s "/tmp/w")
      [("taskPrompt", .s "old task")] "taskPrompt" (by decide)

/-- Helper: unfolding `redactChars` when a match starts at the head. -/
theorem redactChars_eq_match (l : List Char) (n : Nat)
    (h : matchLen l = some n) :
    redactChars l = markerChars ++ redactChars (l.drop n) := by
  rw [redactChars.eq_def]
  split
  · rename_i n2 heq
    rw [h] at heq
    obtain rfl := Option.some.inj heq
    rfl
  · rename_i heq
    rw [h] at heq
    cases heq

/-- Helper: `redactChars` on the empty list. -/
theorem redactChars_nil : redactChars [] = [] := by
  rw [redactChars.eq_def]
  split
  · rename_i n heq
    exact absurd heq (by simp [matchLen])
  · rfl

/-- Helper: unfolding `redactChars` when no match starts at the head. -/
theorem redactChars_eq_copy (c : Char) (rest : List Char)
    (h : matchLen (c :: rest) = none) :
    redactChars (c :: rest) = c :: redactChars rest := by
  rw [redactChars.eq_def]
  split
  · rename_i n heq
    rw [heq] at h
    cases h
  · rfl

/-- Helper: redaction never lengthens the prefix run of a character class
that excludes `'*'` (the marker starts with `'*'`). -/
theorem runLen_redact_le (p : Char → Bool) (hp : p '*' = false)
    (l : List Char) : runLen p (redactChars l) ≤ runLen p l := by
  induction l with
  | nil => rw [redactChars_nil]
  | cons c rest ih =>
    cases hm : matchLen (c :: rest) with
    | some n =>
      rw [redactChars_eq_match _ _ hm]
      show runLen p ('*' :: _) ≤ _
      simp [runLen, hp]
    | none =>
      rw [redactChars_eq_copy _ _ hm]
      by_cases hc : p c
      · simp only [runLen, if_pos hc]
        omega
      · simp [runLen, hc]

/-- Helper: no match can start at a character other than `'g'`, `'s'`,
`'A'`. -/
theorem matchLen_none_of_head (c : Char) (t : List Char)
    (h1 : c ≠ 'g') (h2 : c ≠ 's') (h3 : c ≠ 'A') :
    matchLen (c :: t) = none := by
  rcases t with _ | ⟨b, _ | ⟨c2, _ | ⟨d, t2⟩⟩⟩
  · rfl
  · rfl
  · rfl
  · simp only [matchLen]
    rw [if_neg (by simp [h1]), if_neg (by simp [h2]), if_neg (by simp [h3])]

/-- Helper: no match can start at `'A'` unless `'K'` follows. -/
theorem matchLen_A_nonK (b : Char) (t : List Char) (hb : b ≠ 'K') :
    matchLen ('A' :: b :: t) = none := by
  rcases t with _ | ⟨c2, _ | ⟨d, t2⟩⟩
  · rfl
  · rfl
  · simp only [matchLen]
    rw [if_neg (by simp), if_neg (by simp), if_neg (by simp [hb])]

/-- Helper: the `ghp_` alternative matches greedily. -/
theorem matchLen_ghp (t : List Char) (h : 20 ≤ runLen isAlnumAscii t) :
    matchLen ('g' :: 'h' :: 'p' :: '_' :: t) =
      some (4 + runLen isAlnumAscii t) := by
  simp only [matchLen]
  rw [if_pos (by simp), if_pos h]

/-- Helper: the `sk-` alternative matches greedily. -/
theorem matchLen_sk (t : List Char) (h : 20 ≤ runLen isAlnumAscii t) :
    matchLen ('s' :: 'k' :: '-' :: t) = some (3 + runLen isAlnumAscii t) := by
  rcases t with _ | ⟨d, t2⟩
  · simp [runLen] at h
  · simp only [matchLen]
    rw [if_neg (by simp), if_pos (by simp), if_pos h]

/-- Helper: the `AKIA` alternative matches 16 uppercase/digit characters. -/
theorem matchLen_akia (t : List Char) (h : 16 ≤ runLen isUpperDigit t) :
    matchLen ('A' :: 'K' :: 'I' :: 'A' :: t) = some 20 := by
  simp only [matchLen]
  rw [if_neg (by simp), if_neg (by simp), if_pos (by simp), if_pos h]

/-- Helper: shape analysis of a successful match. -/
theorem matchLen_some_elim (l : List Char) (n : Nat)
    (h : matchLen l = some n) :
    (∃ t, l = 'g' :: 'h' :: 'p' :: '_' :: t ∧ 20 ≤ runLen isAlnumAscii t) ∨
    (∃ t, l = 's' :: 'k' :: '-' :: t ∧ 20 ≤ runLen isAlnumAscii t) ∨
    (∃ t, l = 'A' :: 'K' :: 'I' :: 'A' :: t ∧ 16 ≤ runLen isUpperDigit t) := by
  rcases l with _ | ⟨a, _ | ⟨b, _ | ⟨c2, _ | ⟨d, t⟩⟩⟩⟩
  · cases h
  · cases h
  · cases h
  · cases h
  · simp only [matchLen] at h
    by_cases h1 : a = 'g' ∧ b = 'h' ∧ c2 = 'p' ∧ d = '_'
    · obtain ⟨rfl, rfl, rfl, rfl⟩ := h1
      by_cases h2 : 20 ≤ runLen isAlnumAscii t
      · exact Or.inl ⟨t, rfl, h2⟩
      · rw [if_pos (by simp), if_neg h2] at h
        cases h
    · rw [if_neg h1] at h
      by_cases h3 : a = 's' ∧ b = 'k' ∧ c2 = '-'
      · obtain ⟨rfl, rfl, rfl⟩ := h3
        by_cases h4 : 20 ≤ runLen isAlnumAscii (d :: t)
        · exact Or.inr (Or.inl ⟨d :: t, rfl, h4⟩)
        · rw [if_pos (by simp), if_neg h4] at h
          cases h
      · rw [if_neg h3] at h
        by_cases h5 : a = 'A' ∧ b = 'K' ∧ c2 = 'I' ∧ d = 'A'
        · obtain ⟨rfl, rfl, rfl, rfl⟩ := h5
          by_cases h6 : 16 ≤ runLen isUpperDigit t
          · exact Or.inr (Or.inr ⟨t, rfl, h6⟩)
          · rw [if_pos (by simp), if_neg h6] at h
            cases h
        · rw [if_neg h5] at h
          cases h

/-- Helper: a successful match consumes at least one character. -/
theorem matchLen_some_pos (l : List Char) (n : Nat)
    (h : matchLen l = some n) : 0 < n := by
  rcases matchLen_some_elim l n h with ⟨t, rfl, ht⟩ | ⟨t, rfl, ht⟩ | ⟨t, rfl, ht⟩
  · rw [matchLen_ghp t ht] at h
    obtain rfl := Option.some.inj h
    omega
  · rw [matchLen_sk t ht] at h
    obtain rfl := Option.some.inj h
    omega
  · rw [matchLen_akia t ht] at h
    obtain rfl := Option.some.inj h
    omega

/-- Helper: peeling one character off a redaction output — it is either the
marker's `'*'` or a faithfully copied head. -/
theorem redactChars_cons_elim (t : List Char) (c : Char) (o : List Char)
    (h : redactChars t = c :: o) :
    c = '*' ∨ ∃ t2, t = c :: t2 ∧ o = redactChars t2 ∧ matchLen t = none := by
  cases t with
  | nil =>
    rw [redactChars_nil] at h
    cases h
  | cons d rest =>
    cases hm : matchLen (d :: rest) with
    | some n =>
      rw [redactChars_eq_match _ _ hm] at h
      left
      have h2 := congrArg List.head? h
      simpa [markerChars] using h2.symm
    | none =>
      rw [redactChars_eq_copy _ _ hm] at h
      right
      obtain ⟨rfl, rfl⟩ : d = c ∧ redactChars rest = o := by
        injection h with ha hb
        exact ⟨ha, hb⟩
      exact ⟨rest, rfl, rfl, rfl⟩

/-- Helper: copying a non-matching head over a redacted tail cannot create
a match at that head. -/
theorem matchLen_copy_none (c : Char) (t : List Char)
    (h : matchLen (c :: t) = none) :
    matchLen (c :: redactChars t) = none := by
  cases hm : matchLen (c :: redactChars t) with
  | none => rfl
  | some n =>
    exfalso
    rcases matchLen_some_elim _ _ hm with ⟨r, hr, hrun⟩ | ⟨r, hr, hrun⟩ |
      ⟨r, hr, hrun⟩
    · obtain ⟨rfl, hrt⟩ : c = 'g' ∧ redactChars t = 'h' :: 'p' :: '_' :: r := by
        injection hr with ha hb
        exact ⟨ha, hb⟩
      rcases redactChars_cons_elim _ _ _ hrt with hstar | ⟨t1, rfl, ho1, -⟩
      · exact absurd hstar (by decide)
      rcases redactChars_cons_elim _ _ _ ho1.symm with hstar | ⟨t2, rfl, ho2, -⟩
      · exact absurd hstar (by decide)
      rcases redactChars_cons_elim _ _ _ ho2.symm with hstar | ⟨t3, rfl, ho3, -⟩
      · exact absurd hstar (by decide)
      have h20 : 20 ≤ runLen isAlnumAscii t3 :=
        le_trans (ho3 ▸ hrun) (runLen_redact_le isAlnumAscii (by decide) t3)
      rw [matchLen_ghp t3 h20] at h
      cases h
    · obtain ⟨rfl, hrt⟩ : c = 's' ∧ redactChars t = 'k' :: '-' :: r := by
        injection hr with ha hb
        exact ⟨ha, hb⟩
      rcases redactChars_cons_elim _ _ _ hrt with hstar | ⟨t1, rfl, ho1, -⟩
      · exact absurd hstar (by decide)
      rcases redactChars_cons_elim _ _ _ ho1.symm with hstar | ⟨t2, rfl, ho2, -⟩
      · exact absurd hstar (by decide)
      have h20 : 20 ≤ runLen isAlnumAscii t2 :=
        le_trans (ho2 ▸ hrun) (runLen_redact_le isAlnumAscii (by decide) t2)
      rw [matchLen_sk t2 h20] at h
      cases h
    · obtain ⟨rfl, hrt⟩ : c = 'A' ∧ redactChars t = 'K' :: 'I' :: 'A' :: r := by
        injection hr with ha hb
        exact ⟨ha, hb⟩
      rcases redactChars_cons_elim _ _ _ hrt with hstar | ⟨t1, rfl, ho1, -⟩
      · exact absurd hstar (by decide)
      rcases redactChars_cons_elim _ _ _ ho1.symm with hstar | ⟨t2, rfl, ho2, -⟩
      · exact absurd hstar (by decide)
      rcases redactChars_cons_elim _ _ _ ho2.symm with hstar | ⟨t3, rfl, ho3, -⟩
      · exact absurd hstar (by decide)
      have h16 : 16 ≤ runLen isUpperDigit t3 :=
        le_trans (ho3 ▸ hrun) (runLen_redact_le isUpperDigit (by decide) t3)
      rw [matchLen_akia t3 h16] at h
      cases h

/-- Helper: prepending the marker to secret-free text stays secret-free
(no match can start inside `"***REDACTED***"` or straddle its stars). -/
theorem noSecret_marker_append (X : List Char) (hX : NoSecretChars X) :
    NoSecretChars (markerChars ++ X) := by
  intro i
  by_cases hi : i < 14
  · interval_cases i
    · exact matchLen_none_of_head '*' _ (by decide) (by decide) (by decide)
    · exact matchLen_none_of_head '*' _ (by decide) (by decide) (by decide)
    · exact matchLen_none_of_head '*' _ (by decide) (by decide) (by decide)
    · exact matchLen_none_of_head 'R' _ (by decide) (by decide) (by decide)
    · exact matchLen_none_of_head 'E' _ (by decide) (by decide) (by decide)
    · exact matchLen_none_of_head 'D' _ (by decide) (by decide) (by decide)
    · exact matchLen_A_nonK 'C' _ (by decide)
    · exact matchLen_none_of_head 'C' _ (by decide) (by decide) (by decide)
    · exact matchLen_none_of_head 'T' _ (by decide) (by decide) (by decide)
    · exact matchLen_none_of_head 'E' _ (by decide) (by decide) (by decide)
    · exact matchLen_none_of_head 'D' _ (by decide) (by decide) (by decide)
    · exact matchLen_none_of_head '*' _ (by decide) (by decide) (by decide)
    · exact matchLen_none_of_head '*' _ (by decide) (by decide) (by decide)
    · exact matchLen_none_of_head '*' _ (by decide) (by decide) (by decide)
  · obtain ⟨j, rfl⟩ : ∃ j, i = 14 + j := ⟨i - 14, by omega⟩
    have hdrop : (markerChars ++ X).drop (14 + j) = X.drop j := by
      have h14 : (14 : Nat) + j = markerChars.length + j := by
        simp [markerChars]
      rw [h14, List.drop_append]
    rw [hdrop]
    exact hX j

/-- Helper: the redaction output never contains a secret, by strong
induction on the input length. -/
theorem redactChars_noSecret_aux :
    ∀ (k : Nat) (l : List Char), l.length ≤ k →
      NoSecretChars (redactChars l) := by
  intro k
  induction k with
  | zero =>
    intro l hl i
    obtain rfl : l = [] := List.length_eq_zero.mp (Nat.le_zero.mp hl)
    rw [redactChars_nil, List.drop_nil]
    rfl
  | succ k ih =>
    intro l hl
    cases hm : matchLen l with
    | some n =>
      have hpos := matchLen_some_pos l n hm
      have hlen : (l.drop n).length ≤ k := by
        simp only [List.length_drop]
        omega
      intro i
      rw [redactChars_eq_match _ _ hm]
      exact noSecret_marker_append _ (ih _ hlen) i
    | none =>
      cases l with
      | nil =>
        intro i
        rw [redactChars_nil, List.drop_nil]
        rfl
      | cons c rest =>
        intro i
        rw [redactChars_eq_copy _ _ hm]
        cases i with
        | zero => exact matchLen_copy_none c rest hm
        | succ j =>
          have hlen2 : rest.length ≤ k := by
            simp only [List.length_cons] at hl
            omega
          exact ih rest hlen2 j

/-- Helper: every suffix of a redacted string is match-free. -/
theorem redactChars_noSecret (l : List Char) :
    NoSecretChars (redactChars l) :=
  redactChars_noSecret_aux l.length l le_rfl

/-- Helper: `_redact` output is secret-free at every nesting depth, by
strong induction on the value size. -/
theorem redactValue_noSecret_aux :
    ∀ (k : Nat) (v : Value), sizeOf v ≤ k → NoSecretValue (redactValue v) := by
  intro k
  induction k with
  | zero =>
    intro v hv
    exfalso
    cases v <;> simp at hv
  | succ k ih =>
    intro v hv
    cases v with
    | str s =>
      simp only [redactValue]
      exact NoSecretValue.str (redactChars_noSecret s.data)
    | int n =>
      simp only [redactValue]
      exact NoSecretValue.int
    | bool b =>
      simp only [redactValue]
      exact NoSecretValue.bool
    | none =>
      simp only [redactValue]
      exact NoSecretValue.none
    | list items =>
      simp only [redactValue]
      refine NoSecretValue.list ?_
      intro w hw
      rw [List.mem_map] at hw
      obtain ⟨x, hx, rfl⟩ := hw
      apply ih
      have hlt := List.sizeOf_lt_of_mem x.2
      simp only [Value.list.sizeOf_spec] at hv
      omega
    | dict entries =>
      simp only [redactValue]
      refine NoSecretValue.dict ?_
      intro kv hkv
      rw [List.mem_map] at hkv
      obtain ⟨x, hx, rfl⟩ := hkv
      obtain ⟨⟨ka, va⟩, hmem⟩ := x
      apply ih
      have hlt := List.sizeOf_lt_of_mem hmem
      have hpair : sizeOf (ka, va) = 1 + sizeOf ka + sizeOf va := rfl
      simp only [Value.dict.sizeOf_spec] at hv
      simp only []
      omega

/-- Helper: `_redact` produces secret-free values. -/
theorem redactValue_noSecret (v : Value) : NoSecretValue (redactValue v) :=
  redactValue_noSecret_aux (sizeOf v) v le_rfl

/-- C8: every event `_emit_event` produces carries a message and a data
payload whose strings — including strings nested inside lists and dicts at
any depth — contain no substring matching the secret-token shapes
(`ghp_`/`sk-` credential markers followed by 20+ alphanumerics, or
`AKIA` followed by 16 uppercase/digit characters: each has been replaced by
the fixed `***REDACTED***` marker), and exactly that redacted event is both
appended to `events.jsonl` and handed to the event sink. -/
theorem emit_event_redacts (env : RunEnv) (source etype level : String)
    (message : Value) (data : Option Value) (role : Option String)
    (st : OrchSt) :
    NoSecretValue (emitEvent env source etype level message data role st).2.message ∧
    NoSecretValue (emitEvent env source etype level message data role st).2.data ∧
    (emitEvent env source etype level message data role st).1.events =
      st.events ++ [(emitEvent env source etype level message data role st).2] := by
  refine ⟨?_, ?_, rfl⟩
  · exact redactValue_noSecret message
  · exact redactValue_noSecret _


/-- Helper: file writes either overwrite the named file or leave the other
files in place. -/
theorem lookup_assocSet {α : Type} (k k2 : String) (v : α)
    (m : List (String × α)) :
    List.lookup k2 (assocSet k v m) =
      if k2 = k then some v else List.lookup k2 m := by
  induction m with
  | nil =>
    by_cases h : k2 = k
    · subst h; simp [assocSet, List.lookup]
    · simp [assocSet, List.lookup, h, beq_eq_false_iff_ne.mpr h]
  | cons p rest ih =>
    obtain ⟨k3, v3⟩ := p
    by_cases h3 : k3 = k
    · subst h3
      by_cases h : k2 = k3
      · subst h; simp [assocSet, List.lookup]
      · simp [assocSet, List.lookup, h, beq_eq_false_iff_ne.mpr h]
    · by_cases h : k2 = k3
      · subst h
        simp [assocSet, List.lookup, h3]
      · simp [assocSet, List.lookup, h3, h, beq_eq_false_iff_ne.mpr h, ih]

/-- Helper: when the format/lint/test loop ends in the cancel-finalize
branch, the run log carries status `cancelled` and is written, the final
summary is written, events are non-empty, the cancelling query answered
`true`, and the builder/reviewer counters are untouched. -/
theorem runChecks_cancelled_spec (cfg : OrchConfig) (env : RunEnv)
    (f : Nat → Bool) :
    ∀ (keys : List (String × Option String)) (checks : List CommandResult)
      (runLog : RunLog) (st : OrchSt) (checksC : List CommandResult)
      (logC : RunLog) (stC : OrchSt),
      runChecks cfg env f keys checks runLog st = .cancelled checksC logC stC →
      logC.status = "cancelled" ∧
      List.lookup "run-log.json" stC.files = some (.runLogJson logC) ∧
      (List.lookup "final-summary.md" stC.files).isSome = true ∧
      stC.events ≠ [] ∧
      0 < stC.queries ∧ f (stC.queries - 1) = true ∧
      stC.builderCalls = st.builderCalls ∧
      stC.reviewerCalls = st.reviewerCalls := by
  intro keys
  induction keys with
  | nil =>
    intro checks runLog st checksC logC stC h
    simp [runChecks] at h
  | cons kv rest ih =>
    intro checks runLog st checksC logC stC h
    obtain ⟨key, cmd⟩ := kv
    simp only [runChecks, askCancelled] at h
    by_cases hc : f st.queries = true
    · rw [if_pos hc] at h
      injection h with h1 h2 h3
      subst h1
      subst h2
      subst h3
      refine ⟨rfl, ?_, ?_, ?_, ?_, ?_, rfl, rfl⟩
      · show List.lookup "run-log.json"
          (assocSet "final-summary.md" _ (assocSet "run-log.json" _ _)) = _
        rw [lookup_assocSet, if_neg (by decide), lookup_assocSet, if_pos rfl]
      · show (List.lookup "final-summary.md"
          (assocSet "final-summary.md" _ _)).isSome = true
        rw [lookup_assocSet, if_pos rfl]
        rfl
      · simp [emitEvent, writeFile, askChanged]
      · show 0 < st.queries + 1
        omega
      · show f (st.queries + 1 - 1) = true
        simpa using hc
    · rw [if_neg hc] at h
      cases hcmd : runCommand cfg.commands.allowlist env.spawn cmd with
      | mk res spawned =>
        rw [hcmd] at h
        cases res with
        | error e => cases h
        | ok result =>
          obtain ⟨a, b, c, d, e, f2, g, h2⟩ := ih _ _ _ _ _ _ h
          exact ⟨a, b, c, d, e, f2, g.trans rfl, h2.trans rfl⟩

/-- Helper: when the format/lint/test loop completes, the builder and
reviewer counters and the run-dir files are unchanged, and the run log's
status field is still the input one. -/
theorem runChecks_done_spec (cfg : OrchConfig) (env : RunEnv)
    (f : Nat → Bool) :
    ∀ (keys : List (String × Option String)) (checks : List CommandResult)
      (runLog : RunLog) (st : OrchSt) (checksD : List CommandResult)
      (logD : RunLog) (stD : OrchSt),
      runChecks cfg env f keys checks runLog st = .done checksD logD stD →
      stD.builderCalls = st.builderCalls ∧
      stD.reviewerCalls = st.reviewerCalls ∧
      logD.status = runLog.status := by
  intro keys
  induction keys with
  | nil =>
    intro checks runLog st checksD logD stD h
    simp only [runChecks] at h
    injection h with h1 h2 h3
    subst h2
    subst h3
    exact ⟨rfl, rfl, rfl⟩
  | cons kv rest ih =>
    intro checks runLog st checksD logD stD h
    obtain ⟨key, cmd⟩ := kv
    simp only [runChecks, askCancelled] at h
    by_cases hc : f st.queries = true
    · rw [if_pos hc] at h
      cases h
    · rw [if_neg hc] at h
      cases hcmd : runCommand cfg.commands.allowlist env.spawn cmd with
      | mk res spawned =>
        rw [hcmd] at h
        cases res with
        | error e => cases h
        | ok result =>
          obtain ⟨a, b, c⟩ := ih _ _ _ _ _ _ h
          exact ⟨a.trans rfl, b.trans rfl, c.trans rfl⟩

/-- Helper: the convergence loop performs at most `fuel` extra
Builder/Reviewer cycles. -/
theorem convergeLoop_calls_le (ags : Agents) (env : RunEnv) (f : Nat → Bool)
    (plan : Plan) :
    ∀ (fuel : Nat) (b : BuildResult) (r : Review) (st : OrchSt),
      (convergeLoop ags env f plan fuel b r st).2.2.builderCalls ≤
        st.builderCalls + fuel ∧
      (convergeLoop ags env f plan fuel b r st).2.2.reviewerCalls ≤
        st.reviewerCalls + fuel := by
  intro fuel
  induction fuel with
  | zero =>
    intro b r st
    exact ⟨Nat.le_refl _, Nat.le_refl _⟩
  | succ fuel ih =>
    intro b r st
    simp only [convergeLoop, askCancelled, askDiff]
    by_cases hhigh : (r.findings.any (fun fd => fd.severity = "high")) = true
    · rw [if_pos hhigh]
      by_cases hc : f st.queries = true
      · rw [if_pos hc]
        exact ⟨by dsimp only; omega, by dsimp only; omega⟩
      · rw [if_neg hc]
        obtain ⟨h1, h2⟩ := ih (ags.implement plan (some r.requiredActions)) _
          { st with
            queries := st.queries + 1
            builderCalls := st.builderCalls + 1
            diffCalls := st.diffCalls + 1
            reviewerCalls := st.reviewerCalls + 1 }
        constructor
        · exact le_trans h1 (by simp; omega)
        · exact le_trans h2 (by simp; omega)
    · rw [if_neg hhigh]
      exact ⟨by dsimp only; omega, by dsimp only; omega⟩

/-- Helper: with a reviewer that always reports a high-severity finding and
a control that never cancels, the convergence loop spends its whole budget:
exactly `fuel` extra Builder/Reviewer cycles. -/
theorem convergeLoop_exact (ags : Agents) (env : RunEnv) (f : Nat → Bool)
    (plan : Plan)
    (hrev : ∀ d ft aa, ((ags.review d ft aa).findings.any
      (fun fd => fd.severity = "high")) = true)
    (hnc : ∀ i, f i = false) :
    ∀ (fuel : Nat) (b : BuildResult) (r : Review) (st : OrchSt),
      (r.findings.any (fun fd => fd.severity = "high")) = true →
      (convergeLoop ags env f plan fuel b r st).2.2.builderCalls =
        st.builderCalls + fuel ∧
      (convergeLoop ags env f plan fuel b r st).2.2.reviewerCalls =
        st.reviewerCalls + fuel := by
  intro fuel
  induction fuel with
  | zero =>
    intro b r st hr
    exact ⟨rfl, rfl⟩
  | succ fuel ih =>
    intro b r st hr
    simp only [convergeLoop, askCancelled, askDiff]
    rw [if_pos hr, if_neg (by simp [hnc])]
    constructor
    · rw [(ih _ _ _ (hrev _ _ _)).1]
      dsimp only
      omega
    · rw [(ih _ _ _ (hrev _ _ _)).2]
      dsimp only
      omega

/-- Helper: for a monotone (one-way) cancel flag, some query among the
first `q + 1` answered `true` exactly when the last of them did. -/
theorem mono_exists_lt_succ (f : Nat → Bool)
    (hmono : ∀ i, f i = true → f (i + 1) = true) (q : Nat) :
    (∃ i, i < q + 1 ∧ f i = true) ↔ f q = true := by
  constructor
  · rintro ⟨i, hi, hfi⟩
    have hstep : ∀ j, f (i + j) = true := by
      intro j
      induction j with
      | zero => exact hfi
      | succ j ih2 => exact hmono _ ih2
    obtain ⟨j, rfl⟩ : ∃ j, q = i + j := ⟨q - i, by omega⟩
    exact hstep j
  · intro h
    exact ⟨q, by omega, h⟩


/-- Helper: state bookkeeping of `emitEvent`. -/
theorem emitEvent_queries (env : RunEnv) (s t l : String) (m : Value)
    (d : Option Value) (a : Option String) (st : OrchSt) :
    ((emitEvent env s t l m d a st).1).queries = st.queries := rfl

/-- Helper: state bookkeeping of `emitEvent`. -/
theorem emitEvent_files (env : RunEnv) (s t l : String) (m : Value)
    (d : Option Value) (a : Option String) (st : OrchSt) :
    ((emitEvent env s t l m d a st).1).files = st.files := rfl

/-- Helper: state bookkeeping of `emitEvent`. -/
theorem emitEvent_events (env : RunEnv) (s t l : String) (m : Value)
    (d : Option Value) (a : Option String) (st : OrchSt) :
    ((emitEvent env s t l m d a st).1).events =
      st.events ++ [(emitEvent env s t l m d a st).2] := rfl

/-- Helper: state bookkeeping of `emitEvent`. -/
theorem emitEvent_builderCalls (env : RunEnv) (s t l : String) (m : Value)
    (d : Option Value) (a : Option String) (st : OrchSt) :
    ((emitEvent env s t l m d a st).1).builderCalls = st.builderCalls := rfl

/-- Helper: state bookkeeping of `emitEvent`. -/
theorem emitEvent_reviewerCalls (env : RunEnv) (s t l : String) (m : Value)
    (d : Option Value) (a : Option String) (st : OrchSt) :
    ((emitEvent env s t l m d a st).1).reviewerCalls = st.reviewerCalls := rfl

/-- Helper: state bookkeeping of `writeFile`. -/
theorem writeFile_queries (n : String) (d : FileData) (st : OrchSt) :
    (writeFile n d st).queries = st.queries := rfl

/-- Helper: state bookkeeping of `writeFile`. -/
theorem writeFile_files (n : String) (d : FileData) (st : OrchSt) :
    (writeFile n d st).files = assocSet n d st.files := rfl

/-- Helper: state bookkeeping of `writeFile`. -/
theorem writeFile_events (n : String) (d : FileData) (st : OrchSt) :
    (writeFile n d st).events = st.events := rfl

set_option maxHeartbeats 1000000 in
/-- C4: for every run that returns normally (with a monotone, one-way
cancel flag), the final status recorded in `run-log.json` is `"cancelled"`
exactly when the control answered `true` to an `is_cancelled()` query made
before the final run-log write (the start checkpoint, a format/lint/test
checkpoint, a retry-iteration checkpoint, or the finalize check itself);
and such a run still has `run-log.json`, `final-summary.md` and a
non-empty `events.jsonl` written when that status is `cancelled`. -/

theorem run_log_cancelled_iff (cfg : OrchConfig) (ags : Agents) (env : RunEnv)
    (f : Nat → Bool) (task workflow : String) (r : RunResult)
    (hmono : ∀ i, f i = true → f (i + 1) = true)
    (hok : orchRun cfg ags env f task workflow = .ok r) :
    (finalRunLogStatus r = some "cancelled" ↔
      ∃ i, i < r.queriesAtFinalWrite ∧ f i = true) ∧
    (finalRunLogStatus r = some "cancelled" →
      (List.lookup "run-log.json" r.st.files).isSome = true ∧
      (List.lookup "final-summary.md" r.st.files).isSome = true ∧
      r.st.events ≠ []) := by
  simp only [orchRun, askCancelled, askDiff, askChanged] at hok
  split at hok
  · rename_i h0
    rw [Except.ok.injEq] at hok
    subst hok
    have h0b : f 0 = true := h0
    constructor
    · constructor
      · intro hcon
        exact ⟨0, by simp [emitEvent_queries, writeFile_queries], h0b⟩
      · intro hex
        simp [finalRunLogStatus, writeFile_files, emitEvent_files,
          lookup_assocSet]
    · intro hcon
      refine ⟨?_, ?_, ?_⟩
      · simp [writeFile_files, emitEvent_files, lookup_assocSet]
      · simp [writeFile_files, emitEvent_files, lookup_assocSet]
      · simp [emitEvent_events]
  · rename_i h0
    have h0b : f 0 = false := by
      have h0c : ¬ f 0 = true := h0
      exact Bool.eq_false_iff.mpr h0c
    split at hok
    · -- arch_review_only
      rw [Except.ok.injEq] at hok
      subst hok
      constructor
      · constructor
        · intro hcon
          exfalso
          revert hcon
          simp [finalRunLogStatus, writeFile_files, emitEvent_files,
            lookup_assocSet]
        · intro hex
          exfalso
          obtain ⟨i, hi, hfi⟩ := hex
          have hi1 : i < 1 := by
            simpa [writeFile_queries, emitEvent_queries] using hi
          have hz : i = 0 := by omega
          rw [hz, h0b] at hfi
          cases hfi
      · intro hcon
        exfalso
        revert hcon
        simp [finalRunLogStatus, writeFile_files, emitEvent_files,
          lookup_assocSet]
    · -- frontend_feature
      split at hok
      · cases hok
      · rename_i checksC logC stC heq
        rw [Except.ok.injEq] at hok
        subst hok
        obtain ⟨ha, hb, hsum, hev, hq, hf, -, -⟩ :=
          runChecks_cancelled_spec cfg env f _ _ _ _ _ _ _ heq
        have hstat : finalRunLogStatus
            { runDir := env.runDirName, st := stC,
              queriesAtFinalWrite := stC.queries } = some "cancelled" := by
          simp only [finalRunLogStatus, hb]
          rw [ha]
        refine ⟨⟨fun _ => ⟨stC.queries - 1, by dsimp only; omega, hf⟩,
          fun _ => hstat⟩,
          fun _ => ⟨by dsimp only; rw [hb]; rfl, hsum, hev⟩⟩
      · rename_i checks runLogB st11 heq
        split at hok
        · -- finalize query answered true: status cancelled
          rename_i hc1
          rw [Except.ok.injEq] at hok
          subst hok
          constructor
          · constructor
            · intro hcon
              refine ⟨_, ?_, hc1⟩
              simp only [emitEvent_queries, writeFile_queries]
              omega
            · intro hex
              simp [finalRunLogStatus, writeFile_files, emitEvent_files,
                lookup_assocSet]
          · intro hcon
            refine ⟨?_, ?_, ?_⟩
            · simp [writeFile_files, emitEvent_files, lookup_assocSet]
            · simp [writeFile_files, emitEvent_files, lookup_assocSet]
            · simp [emitEvent_events]
        · -- finalize query answered false: status completed
          rename_i hc1
          rw [Except.ok.injEq] at hok
          subst hok
          constructor
          · constructor
            · intro hcon
              exfalso
              revert hcon
              simp [finalRunLogStatus, writeFile_files, emitEvent_files,
                lookup_assocSet]
            · intro hex
              exfalso
              simp only [emitEvent_queries, writeFile_queries] at hex hc1
              rw [mono_exists_lt_succ f hmono] at hex
              exact hc1 hex
          · intro hcon
            exfalso
            revert hcon
            simp [finalRunLogStatus, writeFile_files, emitEvent_files,
              lookup_assocSet]

/-- Helper: state bookkeeping of `writeFile`. -/
theorem writeFile_builderCalls (n : String) (d : FileData) (st : OrchSt) :
    (writeFile n d st).builderCalls = st.builderCalls := rfl

/-- Helper: state bookkeeping of `writeFile`. -/
theorem writeFile_reviewerCalls (n : String) (d : FileData) (st : OrchSt) :
    (writeFile n d st).reviewerCalls = st.reviewerCalls := rfl

/-- C4, witness: the theorem applied to a concrete run whose control is
cancelled from the first checkpoint. -/
theorem run_log_cancelled_iff_witness :
    (finalRunLogStatus cancelRunResult = some "cancelled" ↔
      ∃ i, i < cancelRunResult.queriesAtFinalWrite ∧ true = true) ∧
    (finalRunLogStatus cancelRunResult = some "cancelled" →
      (List.lookup "run-log.json" cancelRunResult.st.files).isSome = true ∧
      (List.lookup "final-summary.md" cancelRunResult.st.files).isSome = true ∧
      cancelRunResult.st.events ≠ []) :=
  run_log_cancelled_iff defaultOrchConfig defaultAgents witnessEnv
    (fun _ => true) "Build feature" "frontend_feature" cancelRunResult
    (fun _ h => h) rfl

set_option maxHeartbeats 8000000 in
/-- C5: (a) with a reviewer whose every review carries a high-severity
finding, `maxIterations = 2`, and no cancellation, a normally returning
`frontend_feature` run performs exactly 1 initial + 2 retry Builder cycles
(3 Builder and 3 Reviewer invocations) and finalizes with status
`completed`; (b) in general the run performs at most `1 + maxIterations`
Builder invocations and at most `1 + maxIterations` Reviewer invocations. -/
theorem convergence_iteration_budget :
    (∀ (cfg : OrchConfig) (ags : Agents) (env : RunEnv) (f : Nat → Bool)
        (task : String) (r : RunResult),
        (∀ d ft aa, ((ags.review d ft aa).findings.any
          (fun fd => fd.severity = "high")) = true) →
        (∀ i, f i = false) →
        cfg.maxIterations = 2 →
        orchRun cfg ags env f task "frontend_feature" = .ok r →
        r.st.builderCalls = 3 ∧ r.st.reviewerCalls = 3 ∧
          finalRunLogStatus r = some "completed") ∧
    (∀ (cfg : OrchConfig) (ags : Agents) (env : RunEnv) (f : Nat → Bool)
        (task workflow : String) (r : RunResult),
        orchRun cfg ags env f task workflow = .ok r →
        r.st.builderCalls ≤ 1 + cfg.maxIterations ∧
        r.st.reviewerCalls ≤ 1 + cfg.maxIterations) := by
  constructor
  · intro cfg ags env f task r hrev hnc hmax hok
    have hfe : (false = true) = False := by simp
    have hwf : ("frontend_feature" = "arch_review_only") = False := by simp
    simp only [orchRun, askCancelled, askDiff, askChanged, hnc, hfe, hwf,
      if_false] at hok
    split at hok
    · cases hok
    · rename_i checksC logC stC heq
      exfalso
      obtain ⟨-, -, -, -, -, hf, -, -⟩ :=
        runChecks_cancelled_spec cfg env f _ _ _ _ _ _ _ heq
      rw [hnc] at hf
      cases hf
    · rename_i checks runLogB st11 heq
      rw [Except.ok.injEq] at hok
      subst hok
      obtain ⟨hb11, hr11, -⟩ := runChecks_done_spec cfg env f _ _ _ _ _ _ _ heq
      have hb0 : st11.builderCalls = 0 := hb11.trans rfl
      have hr0 : st11.reviewerCalls = 0 := hr11.trans rfl
      refine ⟨?_, ?_, ?_⟩
      · simp [emitEvent_builderCalls, writeFile_builderCalls]
        rw [(convergeLoop_exact ags env f _ hrev hnc _ _ _ _ (hrev _ _ _)).1]
        simp [emitEvent_builderCalls, writeFile_builderCalls]
        all_goals omega
      · simp [emitEvent_reviewerCalls, writeFile_reviewerCalls]
        rw [(convergeLoop_exact ags env f _ hrev hnc _ _ _ _ (hrev _ _ _)).2]
        simp [emitEvent_reviewerCalls, writeFile_reviewerCalls]
        all_goals omega
      · simp [finalRunLogStatus, writeFile_files, emitEvent_files,
          lookup_assocSet]
  · intro cfg ags env f task workflow r hok
    simp only [orchRun, askCancelled, askDiff, askChanged] at hok
    split at hok
    · rw [Except.ok.injEq] at hok
      subst hok
      constructor
      · simp [emitEvent_builderCalls, writeFile_builderCalls]
        all_goals omega
      · simp [emitEvent_reviewerCalls, writeFile_reviewerCalls]
        all_goals omega
    · split at hok
      · rw [Except.ok.injEq] at hok
        subst hok
        constructor
        · simp [emitEvent_builderCalls, writeFile_builderCalls]
          all_goals omega
        · simp [emitEvent_reviewerCalls, writeFile_reviewerCalls]
          all_goals omega
      · split at hok
        · cases hok
        · rename_i checksC logC stC heq
          rw [Except.ok.injEq] at hok
          subst hok
          obtain ⟨-, -, -, -, -, -, hbC, hrC⟩ :=
            runChecks_cancelled_spec cfg env f _ _ _ _ _ _ _ heq
          constructor
          · show stC.builderCalls ≤ 1 + cfg.maxIterations
            rw [hbC]
            simp [emitEvent_builderCalls, writeFile_builderCalls]
            all_goals omega
          · show stC.reviewerCalls ≤ 1 + cfg.maxIterations
            rw [hrC]
            simp [emitEvent_reviewerCalls, writeFile_reviewerCalls]
            all_goals omega
        · rename_i checks runLogB st11 heq
          obtain ⟨hb11, hr11, -⟩ :=
            runChecks_done_spec cfg env f _ _ _ _ _ _ _ heq
          have hb0 : st11.builderCalls = 0 := hb11.trans rfl
          have hr0 : st11.reviewerCalls = 0 := hr11.trans rfl
          split at hok
          · rw [Except.ok.injEq] at hok
            subst hok
            constructor
            · simp [emitEvent_builderCalls, writeFile_builderCalls]
              exact le_trans ((convergeLoop_calls_le ags env f _ _ _ _ _).1)
                (by simp [emitEvent_builderCalls, writeFile_builderCalls]; omega)
            · simp [emitEvent_reviewerCalls, writeFile_reviewerCalls]
              exact le_trans ((convergeLoop_calls_le ags env f _ _ _ _ _).2)
                (by simp [emitEvent_reviewerCalls, writeFile_reviewerCalls]; omega)
          · rw [Except.ok.injEq] at hok
            subst hok
            constructor
            · simp [emitEvent_builderCalls, writeFile_builderCalls]
              exact le_trans ((convergeLoop_calls_le ags env f _ _ _ _ _).1)
                (by simp [emitEvent_builderCalls, writeFile_builderCalls]; omega)
            · simp [emitEvent_reviewerCalls, writeFile_reviewerCalls]
              exact le_trans ((convergeLoop_calls_le ags env f _ _ _ _ _).2)
                (by simp [emitEvent_reviewerCalls, writeFile_reviewerCalls]; omega)

/-- C5, witness: the theorem applied at the concrete always-high-review
run with the default configuration. -/
theorem convergence_iteration_budget_witness :
    (highRunResult.st.builderCalls = 3 ∧ highRunResult.st.reviewerCalls = 3 ∧
      finalRunLogStatus highRunResult = some "completed") ∧
    (highRunResult.st.builderCalls ≤ 1 + defaultOrchConfig.maxIterations ∧
      highRunResult.st.reviewerCalls ≤ 1 + defaultOrchConfig.maxIterations) :=
  ⟨convergence_iteration_budget.1 defaultOrchConfig alwaysHighAgents
      witnessEnv (fun _ => false) "Build feature" highRunResult
      (fun _ _ _ => rfl) (fun _ => rfl) rfl rfl,
    convergence_iteration_budget.2 defaultOrchConfig alwaysHighAgents
      witnessEnv (fun _ => false) "Build feature" "frontend_feature"
      highRunResult rfl⟩

/-- C1: the `run` subcommand of `main` calls
`orchestrator.run(task, workspace_path, workflow, workspace_mode=...,
project_name=..., init_git=...)`, but `Orchestrator.run`'s signature has no
`workspace_mode`, `project_name` or `init_git` parameter, so the call
raises `TypeError` before `run` executes and before main can print its
success JSON — for every possible continuation. -/
theorem cli_run_call_raises (α : Type) (call : Unit → α) :
    pyCallOrRaise orchRunParams 3 cliRunKeywordArgs call =
      .error (.typeError "run() got an unexpected keyword argument") := by
  unfold pyCallOrRaise
  rw [if_neg (by decide)]

end ArchHarness
